import Mathlib

/-!
# SyncClipboard: the framing state machine of `main.cpp`

A shallow embedding of `class Worker` and of the registry kept by
`class ClipBoardListener`, followed by theorems about the wire format, the
incremental decoder, echo suppression and the registry.

Conventions of the embedding.

* A byte is a natural number below 256 and a `QByteArray` is a list of bytes.
* The C++ `int` is a 32 bit two-complement integer: it is an `Int`, and where
  the source can leave the range the value is wrapped with `wrap32`.
* `uint64_t` is a natural number reduced modulo `2 ^ 64`.
* Qt functions whose body is not part of the repository (UTF-8 conversion, PNG
  coding) are fields of a `Toolkit` record.
* The socket is the pair of its unread input and of everything written to it.
* The system clock is read inside `processData`, `writeText` and
  `writeImage`; the reading is an argument of the embedded function.
-/

namespace SyncClipboard

/-- A `QByteArray`: the list of its bytes, each a natural number below 256. -/
abbrev QByteArray := List Nat

/-- The enumeration `DataType` of the source. -/
inductive DataType where
  | QUERY
  | TEXT
  | IMAGE
deriving DecidableEq, Repr

/-- The integer an enumerator of `DataType` stands for. -/
def DataType.code : DataType → Nat
  | .QUERY => 0
  | .TEXT => 1
  | .IMAGE => 2

/-- The enumeration `ReadStage` of the source. -/
inductive ReadStage where
  | HEADER
  | BODY
deriving DecidableEq, Repr

/-- The constant member `headerLen`. -/
def headerLen : Int := 5

/-- Conversion of an integer to the 32 bit `int` (two-complement wrap). -/
def wrap32 (n : Int) : Int := (n + 2 ^ 31) % 2 ^ 32 - 2 ^ 31

/-- Conversion of an integer to `uint64_t`. -/
def wrap64 (n : Int) : Nat := (n % 2 ^ 64).toNat

/-- The Qt functions the program calls and whose code is outside the
repository. `QImg` is the type of non-null images; a `QImage` of the source is
an `Option QImg`, the null image being `none`. -/
structure Toolkit (QString QImg : Type) where
  /-- The method `QString::toUtf8`. -/
  toUtf8 : QString → QByteArray
  /-- The function `QString::fromUtf8`. -/
  fromUtf8 : QByteArray → QString
  /-- The method `QString::isEmpty`. -/
  isEmpty : QString → Bool
  /-- The method `QImage::loadFromData(data, "png")` on a null image: the image
  afterwards, which stays null when loading fails. -/
  loadFromData : QByteArray → Option QImg
  /-- The method `QImage::save(&buf, "png")` on a non-null image: the bytes put
  in the buffer, or `none` when it returns false. -/
  save : QImg → Option QByteArray

/-- A call on the clipboard object returned by `QApplication::clipboard()`. -/
inductive SinkCall (QString QImg : Type) where
  | setText (str : QString)
  | setImage (img : Option QImg)
deriving DecidableEq, Repr

/-- The state of a `QTcpSocket` the program can observe. -/
structure QTcpSocket where
  /-- Bytes received from the peer and not read yet. -/
  readBuffer : QByteArray
  /-- Bytes handed to `write`, in order. -/
  written : QByteArray
deriving DecidableEq, Repr

/-- The method `bytesAvailable`. -/
def QTcpSocket.bytesAvailable (s : QTcpSocket) : Nat := s.readBuffer.length

/-- The method `read(maxSize)`: at most `maxSize` bytes from the front of the
unread input, none when `maxSize` is zero or negative. -/
def QTcpSocket.read (s : QTcpSocket) (maxSize : Int) : QByteArray × QTcpSocket :=
  (s.readBuffer.take maxSize.toNat, { s with readBuffer := s.readBuffer.drop maxSize.toNat })

/-- The method `write(data)`. -/
def QTcpSocket.write (s : QTcpSocket) (data : QByteArray) : QTcpSocket :=
  { s with written := s.written ++ data }

/-- The members of `class Worker`, with the socket it points to. The last two
fields are ghost state: the calls of `processData` so far, each with the
members `type` and `recvBuf` at the call, and the calls made on the clipboard. -/
structure Worker (QString QImg : Type) where
  socket_ : QTcpSocket
  recvBuf : QByteArray
  /-- The member `type`: the value held by the `DataType` object, which after
  `DataType(recvBuf.at(0))` may be none of the enumerators. It is kept as the
  value of the byte, 0 to 255; `processData` only tells 0, 1 and 2 from the
  rest. -/
  type : Nat
  leftToRecv : Int
  stage : ReadStage
  setClipboardTime : Nat
  dispatched : List (Nat × QByteArray)
  clipboard : List (SinkCall QString QImg)
deriving DecidableEq

/-- The worker made by the constructor `Worker(socket)` for a socket with
nothing to read and nothing written. The member `type` has no initialiser in
the source; it is assigned before it is first read. -/
def Worker.fresh (QString QImg : Type) : Worker QString QImg :=
  { socket_ := { readBuffer := [], written := [] }
    recvBuf := []
    type := 0
    leftToRecv := headerLen
    stage := ReadStage.HEADER
    setClipboardTime := 0
    dispatched := []
    clipboard := [] }

section Code

variable {QString QImg : Type}

/-- The five bytes stored in `header` by `writeHeader(type, size)`. -/
def headerBytes (type : Nat) (size : Int) : QByteArray :=
  [ type % 256,
    ((size >>> (24 : Nat)) % 256).toNat,
    ((size >>> (16 : Nat)) % 256).toNat,
    ((size >>> (8 : Nat)) % 256).toNat,
    (size % 256).toNat ]

/-- The method `Worker::writeHeader`. -/
def writeHeader (type : DataType) (size : Int) (w : Worker QString QImg) : Worker QString QImg :=
  { w with socket_ := w.socket_.write (headerBytes type.code size) }

/-- The method `Worker::writeText`, the clock reading being `now`. -/
def writeText (tk : Toolkit QString QImg) (now : Nat) (str : QString)
    (w : Worker QString QImg) : Worker QString QImg :=
  if wrap64 ((now : Int) - w.setClipboardTime) < 1000 then w
  else
    let array := tk.toUtf8 str
    let w1 := writeHeader DataType.TEXT (wrap32 array.length) w
    { w1 with socket_ := w1.socket_.write array }

/-- The method `Worker::writeImage`, the clock reading being `now`. -/
def writeImage (tk : Toolkit QString QImg) (now : Nat) (img : Option QImg)
    (w : Worker QString QImg) : Worker QString QImg :=
  if wrap64 ((now : Int) - w.setClipboardTime) < 1000 then w
  else
    match img.bind tk.save with
    | none => w
    | some array =>
      let w1 := writeHeader DataType.IMAGE (wrap32 array.length) w
      { w1 with socket_ := w1.socket_.write array }

/-- The method `Worker::processData`, the clock reading being `now`. -/
def processData (tk : Toolkit QString QImg) (now : Nat)
    (w : Worker QString QImg) : Worker QString QImg :=
  let w0 := { w with dispatched := w.dispatched ++ [(w.type, w.recvBuf)] }
  match w.type with
  | 2 =>
    let img := tk.loadFromData w.recvBuf
    { w0 with setClipboardTime := wrap64 now
              clipboard := w0.clipboard ++ [SinkCall.setImage img] }
  | 1 =>
    let str := tk.fromUtf8 w.recvBuf
    { w0 with setClipboardTime := wrap64 now
              clipboard := w0.clipboard ++ [SinkCall.setText str] }
  | 0 => w0
  | _ => w0

/-- The length decoded from a complete header, line 78 of the source: the four
masked bytes shifted and joined, as an `int`. -/
def headerLength (recvBuf : QByteArray) : Int :=
  wrap32 ((((recvBuf.getD 1 0 &&& 0xFF) <<< 24) ||| ((recvBuf.getD 2 0 &&& 0xFF) <<< 16)
    ||| ((recvBuf.getD 3 0 &&& 0xFF) <<< 8) ||| (recvBuf.getD 4 0 &&& 0xFF) : Nat) : Int)

/-- The body of the loop of `readData` after a non-empty `data` was read,
lines 73 to 91. The clock reading of a call of `processData` is `clock k`,
where `k` counts the calls this worker made before. -/
def received (tk : Toolkit QString QImg) (clock : Nat → Nat) (data : QByteArray)
    (w : Worker QString QImg) : Worker QString QImg :=
  let w1 := { w with recvBuf := w.recvBuf ++ data, leftToRecv := w.leftToRecv - data.length }
  if w1.leftToRecv = 0 then
    if w1.stage = ReadStage.HEADER then
      let w2 := { w1 with type := w1.recvBuf.getD 0 0, leftToRecv := headerLength w1.recvBuf }
      let w3 :=
        if w2.leftToRecv > 0 then { w2 with stage := ReadStage.BODY }
        else processData tk (clock w2.dispatched.length) w2
      { w3 with recvBuf := [] }
    else
      let w2 := processData tk (clock w1.dispatched.length) w1
      { w2 with stage := ReadStage.HEADER, leftToRecv := headerLen, recvBuf := [] }
  else w1

/-- The loop of `Worker::readData`, one iteration for each unit of fuel. Every
iteration that does not return takes at least one byte from the socket, so the
number of unread bytes is enough fuel (`readLoop_fuel`). -/
def readLoop (tk : Toolkit QString QImg) (clock : Nat → Nat) :
    Nat → Worker QString QImg → Worker QString QImg
  | 0, w => w
  | fuel + 1, w =>
    if w.socket_.bytesAvailable > 0 then
      let r := w.socket_.read w.leftToRecv
      if r.1.isEmpty then w
      else readLoop tk clock fuel (received tk clock r.1 { w with socket_ := r.2 })
    else w

/-- The method `Worker::readData`. -/
def readData (tk : Toolkit QString QImg) (clock : Nat → Nat)
    (w : Worker QString QImg) : Worker QString QImg :=
  readLoop tk clock w.socket_.bytesAvailable w

/-- The worker with the unread input of its socket replaced by `bytes`. -/
def Worker.withInput (w : Worker QString QImg) (bytes : QByteArray) : Worker QString QImg :=
  { w with socket_ := { w.socket_ with readBuffer := bytes } }

/-- Arrival of `chunk` on the socket followed by the `readyRead` handler. -/
def feed (tk : Toolkit QString QImg) (clock : Nat → Nat) (chunk : QByteArray)
    (w : Worker QString QImg) : Worker QString QImg :=
  readData tk clock (w.withInput (w.socket_.readBuffer ++ chunk))

/-- Arrival of the chunks one after the other, `readData` running after each. -/
def feedAll (tk : Toolkit QString QImg) (clock : Nat → Nat) (chunks : List QByteArray)
    (w : Worker QString QImg) : Worker QString QImg :=
  chunks.foldl (fun acc chunk => feed tk clock chunk acc) w

/-- The bytes of one frame on the wire, as `writeText` and `writeImage` send
them: the header of `writeHeader` for the size of the payload, then the
payload. -/
def encode (type : DataType) (payload : QByteArray) : QByteArray :=
  headerBytes type.code (wrap32 payload.length) ++ payload

/-- Specification device for the proofs: the effect of `readData` on a worker
whose unread input is `bytes`, taken one byte at a time. When the worker asks
for no byte at all (`leftToRecv` is not positive) the bytes stay unread. -/
def consume (tk : Toolkit QString QImg) (clock : Nat → Nat) :
    QByteArray → Worker QString QImg → Worker QString QImg
  | [], w => w
  | b :: bs, w =>
    if 0 < w.leftToRecv then consume tk clock bs (received tk clock [b] w)
    else w.withInput (w.socket_.readBuffer ++ b :: bs)

/-- The state between two runs of `readData`: nothing is left unread, or the
worker asks for no byte. -/
def Settled (w : Worker QString QImg) : Prop :=
  w.socket_.readBuffer = [] ∨ w.leftToRecv ≤ 0

/-- The worker waits for the first byte of a header. -/
def AtHeader (w : Worker QString QImg) : Prop :=
  w.stage = ReadStage.HEADER ∧ w.leftToRecv = 5 ∧ w.recvBuf = [] ∧ w.socket_.readBuffer = []

/-- Specification device for the proofs: the worker after a whole frame with
type byte `t` and body `payload` was read, starting at a header boundary. -/
def afterFrame (tk : Toolkit QString QImg) (clock : Nat → Nat) (t : Nat) (payload : QByteArray)
    (w : Worker QString QImg) : Worker QString QImg :=
  { processData tk (clock w.dispatched.length)
      { w with recvBuf := payload, type := t, leftToRecv := 0, stage := ReadStage.BODY } with
    stage := ReadStage.HEADER, leftToRecv := headerLen, recvBuf := [] }

/-- Invariant of the decoder used for the range of `leftToRecv`: the member is
a 32 bit `int`, and when it is not positive it is the length decoded from the
header that the last call of `processData` saw in `recvBuf`. -/
def LengthInv (w : Worker QString QImg) : Prop :=
  -(2 : Int) ^ 31 ≤ w.leftToRecv ∧ w.leftToRecv < 2 ^ 31
    ∧ (0 < w.leftToRecv
        ∨ ∃ e, w.dispatched.getLast? = some e ∧ w.leftToRecv = headerLength e.2)

end Code

/-- The member `workerMap`, a `std::map` from the socket pointer to the worker
it owns: the entries in the order of iteration. A socket pointer is a natural
number. -/
abbrev WorkerMap (QString QImg : Type) := List (Nat × Worker QString QImg)

section Registry

variable {QString QImg : Type}

/-- The lookup `workerMap.find(socket)`; `none` stands for `workerMap.end()`. -/
def WorkerMap.find (m : WorkerMap QString QImg) (socket : Nat) : Option (Worker QString QImg) :=
  (List.find? (fun e => e.1 == socket) m).map (fun e => e.2)

/-- The call `workerMap.erase(socket)`. -/
def WorkerMap.erase (m : WorkerMap QString QImg) (socket : Nat) : WorkerMap QString QImg :=
  List.filter (fun e => e.1 != socket) m

/-- The assignment `workerMap[socket] = worker`: the entry is replaced, or
inserted at its place in the order of the keys. -/
def WorkerMap.assign : WorkerMap QString QImg → Nat → Worker QString QImg → WorkerMap QString QImg
  | [], socket, worker => [(socket, worker)]
  | (k, w) :: rest, socket, worker =>
    if socket < k then (socket, worker) :: (k, w) :: rest
    else if socket = k then (socket, worker) :: rest
    else (k, w) :: WorkerMap.assign rest socket worker

/-- The members of `class ClipBoardListener` that the handlers change. The
field `deleted` is ghost state: the sockets `deleteLater` was called on. -/
structure ClipBoardListener (QString QImg : Type) where
  workerMap : WorkerMap QString QImg
  deleted : List Nat
deriving DecidableEq

/-- The slot `handleConnection`, `socket` being the value returned by
`nextPendingConnection` (`none` for the null pointer). -/
def handleConnection (socket : Option Nat) (l : ClipBoardListener QString QImg) :
    ClipBoardListener QString QImg :=
  match socket with
  | none => l
  | some s => { l with workerMap := l.workerMap.assign s (Worker.fresh QString QImg) }

/-- The handler of `disconnected` installed by `handleConnection`. -/
def socketDisconnected (socket : Nat) (l : ClipBoardListener QString QImg) :
    ClipBoardListener QString QImg :=
  { workerMap := l.workerMap.erase socket, deleted := l.deleted ++ [socket] }

/-- The handler of `errorOccurred` installed by `handleConnection`. -/
def socketErrorOccurred (socket : Nat) (l : ClipBoardListener QString QImg) :
    ClipBoardListener QString QImg :=
  { workerMap := l.workerMap.erase socket, deleted := l.deleted ++ [socket] }

/-- The handler of `disconnected` installed by `connectToServer`. -/
def clientDisconnected (client : Nat) (l : ClipBoardListener QString QImg) :
    ClipBoardListener QString QImg :=
  { l with workerMap := l.workerMap.erase client }

/-- A loop `for (iter = workerMap.begin(); iter != workerMap.end(); iter++)`
whose body changes the worker of the entry; `k` counts the iterations done. -/
def forEachWorker (body : Nat → Worker QString QImg → Worker QString QImg) :
    Nat → WorkerMap QString QImg → WorkerMap QString QImg
  | _, [] => []
  | k, (socket, w) :: rest => (socket, body k w) :: forEachWorker body (k + 1) rest

/-- The slot `onClipboardChange`, the clipboard holding the image `img` (null
when `none`) and the text `txt`. The clock reading of the k-th call of
`writeImage` or `writeText` made by the slot is `clock k`. -/
def onClipboardChange (tk : Toolkit QString QImg) (clock : Nat → Nat) (img : Option QImg)
    (txt : QString) (l : ClipBoardListener QString QImg) : ClipBoardListener QString QImg :=
  let m1 :=
    if img.isSome then forEachWorker (fun k w => writeImage tk (clock k) img w) 0 l.workerMap
    else l.workerMap
  let k1 := if img.isSome then l.workerMap.length else 0
  let m2 :=
    if !tk.isEmpty txt then forEachWorker (fun k w => writeText tk (clock k) txt w) k1 m1
    else m1
  { l with workerMap := m2 }

/-- The handler of `readyRead` installed by `handleConnection` and by
`connectToServer`, run after the bytes `chunk` arrived on `socket`: nothing
when the socket has no entry in `workerMap`, else `readData` on its worker. -/
def socketReadyRead (tk : Toolkit QString QImg) (clock : Nat → Nat) (socket : Nat)
    (chunk : QByteArray) (l : ClipBoardListener QString QImg) : ClipBoardListener QString QImg :=
  match l.workerMap.find socket with
  | none => l
  | some _ =>
    let m :=
      List.map (fun e => if e.1 == socket then (e.1, feed tk clock chunk e.2) else e) l.workerMap
    { l with workerMap := m }

end Registry

/-- A toolkit for examples: strings are their UTF-8 bytes, an image is its PNG
bytes, and the bytes that load as an image are those starting with 137. -/
def demoToolkit : Toolkit QByteArray QByteArray :=
  { toUtf8 := fun s => s
    fromUtf8 := fun b => b
    isEmpty := fun s => s.isEmpty
    loadFromData := fun b => if b.head? = some 137 then some b else none
    save := fun i => some i }

section Lemmas

variable {QString QImg : Type}

theorem processData_socket (tk : Toolkit QString QImg) (now : Nat) (w : Worker QString QImg) :
    (processData tk now w).socket_ = w.socket_ := by
  unfold processData; split <;> rfl

theorem processData_recvBuf (tk : Toolkit QString QImg) (now : Nat) (w : Worker QString QImg) :
    (processData tk now w).recvBuf = w.recvBuf := by
  unfold processData; split <;> rfl

theorem processData_stage (tk : Toolkit QString QImg) (now : Nat) (w : Worker QString QImg) :
    (processData tk now w).stage = w.stage := by
  unfold processData; split <;> rfl

theorem processData_leftToRecv (tk : Toolkit QString QImg) (now : Nat) (w : Worker QString QImg) :
    (processData tk now w).leftToRecv = w.leftToRecv := by
  unfold processData; split <;> rfl

theorem processData_type (tk : Toolkit QString QImg) (now : Nat) (w : Worker QString QImg) :
    (processData tk now w).type = w.type := by
  unfold processData; split <;> rfl

theorem processData_dispatched (tk : Toolkit QString QImg) (now : Nat)
    (w : Worker QString QImg) :
    (processData tk now w).dispatched = w.dispatched ++ [(w.type, w.recvBuf)] := by
  unfold processData; split <;> rfl

theorem processData_setSocket (tk : Toolkit QString QImg) (now : Nat)
    (w : Worker QString QImg) (s : QTcpSocket) :
    processData tk now { w with socket_ := s } = { processData tk now w with socket_ := s } := by
  unfold processData; dsimp only; split <;> rfl

theorem received_setSocket (tk : Toolkit QString QImg) (clock : Nat → Nat) (data : QByteArray)
    (w : Worker QString QImg) (s : QTcpSocket) :
    received tk clock data { w with socket_ := s }
      = { received tk clock data w with socket_ := s } := by
  unfold received
  dsimp only
  split
  · split
    · split
      · rfl
      · unfold processData; dsimp only; split <;> rfl
    · unfold processData; dsimp only; split <;> rfl
  · rfl

theorem received_socket (tk : Toolkit QString QImg) (clock : Nat → Nat) (data : QByteArray)
    (w : Worker QString QImg) : (received tk clock data w).socket_ = w.socket_ := by
  unfold received
  dsimp only
  split_ifs <;> simp only [processData_socket]

/-- A read that does not complete the header or the body only accumulates. -/
theorem received_short (tk : Toolkit QString QImg) (clock : Nat → Nat) (data : QByteArray)
    (w : Worker QString QImg) (h : (data.length : Int) ≠ w.leftToRecv) :
    received tk clock data w
      = { w with recvBuf := w.recvBuf ++ data, leftToRecv := w.leftToRecv - data.length } := by
  unfold received
  have h0 : ¬ (w.leftToRecv - (data.length : Int) = 0) := by omega
  simp only [h0, if_false]

/-- Reading `b :: ds` at once is reading `b` and then `ds`. -/
theorem received_cons (tk : Toolkit QString QImg) (clock : Nat → Nat) (b : Nat)
    (ds : QByteArray) (w : Worker QString QImg) (h : 1 < w.leftToRecv) :
    received tk clock ds (received tk clock [b] w) = received tk clock (b :: ds) w := by
  rw [received_short tk clock [b] w (by simp; omega)]
  unfold received
  simp only [List.append_assoc, List.singleton_append, List.length_cons, List.length_nil,
    Nat.cast_add, Nat.cast_one, Nat.cast_zero, zero_add]
  have e : w.leftToRecv - 1 - (ds.length : Int) = w.leftToRecv - ((ds.length : Int) + 1) := by
    omega
  rw [e]

theorem withInput_self (w : Worker QString QImg) : w.withInput w.socket_.readBuffer = w := rfl

theorem withInput_withInput (w : Worker QString QImg) (a b : QByteArray) :
    (w.withInput a).withInput b = w.withInput b := rfl

theorem withInput_leftToRecv (w : Worker QString QImg) (a : QByteArray) :
    (w.withInput a).leftToRecv = w.leftToRecv := rfl

theorem withInput_readBuffer (w : Worker QString QImg) (a : QByteArray) :
    (w.withInput a).socket_.readBuffer = a := rfl

theorem received_withInput (tk : Toolkit QString QImg) (clock : Nat → Nat) (data : QByteArray)
    (w : Worker QString QImg) (a : QByteArray) :
    received tk clock data (w.withInput a) = (received tk clock data w).withInput a := by
  unfold Worker.withInput
  rw [received_setSocket, received_socket]

theorem received_readBuffer (tk : Toolkit QString QImg) (clock : Nat → Nat) (data : QByteArray)
    (w : Worker QString QImg) :
    (received tk clock data w).socket_.readBuffer = w.socket_.readBuffer := by
  rw [received_socket]

theorem consume_nil (tk : Toolkit QString QImg) (clock : Nat → Nat) (w : Worker QString QImg) :
    consume tk clock [] w = w := rfl

theorem consume_cons_pos (tk : Toolkit QString QImg) (clock : Nat → Nat) (b : Nat)
    (bs : QByteArray) (w : Worker QString QImg) (h : 0 < w.leftToRecv) :
    consume tk clock (b :: bs) w = consume tk clock bs (received tk clock [b] w) := by
  simp only [consume, h, if_true]

/-- A worker that asks for no byte leaves the input unread. -/
theorem consume_stuck (tk : Toolkit QString QImg) (clock : Nat → Nat) (bs : QByteArray)
    (w : Worker QString QImg) (h : w.leftToRecv ≤ 0) :
    consume tk clock bs w = w.withInput (w.socket_.readBuffer ++ bs) := by
  cases bs with
  | nil => simp [consume, withInput_self]
  | cons b bs =>
    have h0 : ¬ (0 < w.leftToRecv) := by omega
    simp only [consume, h0, if_false]

/-- Bytes that the worker still needs can be taken in one read. -/
theorem consume_append_received (tk : Toolkit QString QImg) (clock : Nat → Nat)
    (data rest : QByteArray) (w : Worker QString QImg) (hne : data ≠ [])
    (hlen : (data.length : Int) ≤ w.leftToRecv) :
    consume tk clock (data ++ rest) w = consume tk clock rest (received tk clock data w) := by
  induction data generalizing w with
  | nil => exact absurd rfl hne
  | cons b ds ih =>
    have hl : (ds.length : Int) + 1 ≤ w.leftToRecv := by simpa using hlen
    have hpos : 0 < w.leftToRecv := by omega
    rw [List.cons_append, consume_cons_pos tk clock b _ w hpos]
    by_cases hds : ds = []
    · subst hds; rfl
    · have h1 : 1 < w.leftToRecv := by
        have : 0 < ds.length := List.length_pos.mpr hds
        omega
      have hs := received_short tk clock [b] w (by simp; omega)
      rw [ih (received tk clock [b] w) hds (by rw [hs]; simp; omega),
        received_cons tk clock b ds w h1]

/-- The loop of `readData` is the byte by byte reading of the unread input. -/
theorem readLoop_eq_consume (tk : Toolkit QString QImg) (clock : Nat → Nat) (fuel : Nat)
    (w : Worker QString QImg) (h : w.socket_.readBuffer.length ≤ fuel) :
    readLoop tk clock fuel w = consume tk clock w.socket_.readBuffer (w.withInput []) := by
  induction fuel generalizing w with
  | zero =>
    have e : w.socket_.readBuffer = [] := List.length_eq_zero.mp (Nat.le_zero.mp h)
    rw [e]
    simp only [readLoop, consume_nil]
    rw [← e, withInput_self]
  | succ fuel ih =>
    unfold readLoop
    by_cases hav : w.socket_.bytesAvailable > 0
    · simp only [hav, if_true]
      have hrb : w.socket_.readBuffer ≠ [] := by
        intro e; simp [QTcpSocket.bytesAvailable, e] at hav
      by_cases hleft : 0 < w.leftToRecv
      · have hk : 0 < w.leftToRecv.toNat := by omega
        have hne : List.take w.leftToRecv.toNat w.socket_.readBuffer ≠ [] := by
          intro e
          rw [List.take_eq_nil_iff] at e
          rcases e with e | e
          · omega
          · exact hrb e
        have hemp : (w.socket_.read w.leftToRecv).1.isEmpty = false := by
          simp only [QTcpSocket.read, List.isEmpty_eq_false]
          exact hne
        simp only [hemp, Bool.false_eq_true, if_false]
        rw [ih]
        · rw [received_readBuffer]
          simp only [QTcpSocket.read]
          conv_rhs => rw [← List.take_append_drop w.leftToRecv.toNat w.socket_.readBuffer]
          rw [consume_append_received tk clock _ _ _ hne
            (by rw [withInput_leftToRecv, List.length_take]; omega)]
          have e : ∀ (d a : QByteArray),
              (received tk clock d (w.withInput a)).withInput [] = received tk clock d (w.withInput []) := by
            intro d a
            rw [received_withInput, received_withInput, withInput_withInput]
          exact congrArg _ (e _ _)
        · rw [received_readBuffer]
          simp only [QTcpSocket.read, List.length_drop]
          simp only [QTcpSocket.bytesAvailable] at hav
          omega
      · have hk : w.leftToRecv.toNat = 0 := by omega
        have hemp : (w.socket_.read w.leftToRecv).1.isEmpty = true := by
          simp [QTcpSocket.read, hk]
        simp only [hemp, if_true]
        rw [consume_stuck tk clock _ _ (by rw [withInput_leftToRecv]; omega)]
        simp [withInput_readBuffer, withInput_withInput, withInput_self]
    · simp only [hav, if_false]
      have e : w.socket_.readBuffer = [] := by
        simp only [QTcpSocket.bytesAvailable, gt_iff_lt, not_lt, Nat.le_zero] at hav
        exact List.length_eq_zero.mp hav
      rw [e, consume_nil, ← e, withInput_self]

theorem readData_eq_consume (tk : Toolkit QString QImg) (clock : Nat → Nat)
    (w : Worker QString QImg) :
    readData tk clock w = consume tk clock w.socket_.readBuffer (w.withInput []) :=
  readLoop_eq_consume tk clock _ w (Nat.le_refl _)

/-- The fuel given to the loop by `readData` is enough: more fuel changes nothing. -/
theorem readLoop_fuel (tk : Toolkit QString QImg) (clock : Nat → Nat) (fuel : Nat)
    (w : Worker QString QImg) (h : w.socket_.bytesAvailable ≤ fuel) :
    readLoop tk clock fuel w = readData tk clock w := by
  rw [readData_eq_consume, readLoop_eq_consume tk clock fuel w h]

theorem consume_append (tk : Toolkit QString QImg) (clock : Nat → Nat) (a b : QByteArray)
    (w : Worker QString QImg) :
    consume tk clock (a ++ b) w = consume tk clock b (consume tk clock a w) := by
  induction a generalizing w with
  | nil => rfl
  | cons x xs ih =>
    by_cases h : 0 < w.leftToRecv
    · rw [List.cons_append, consume_cons_pos tk clock x _ w h, consume_cons_pos tk clock x _ w h, ih]
    · have h0 : w.leftToRecv ≤ 0 := by omega
      rw [consume_stuck tk clock _ w h0, consume_stuck tk clock _ w h0,
        consume_stuck tk clock b _ (by rw [withInput_leftToRecv]; exact h0),
        withInput_readBuffer, withInput_withInput, List.append_assoc]

theorem settled_consume (tk : Toolkit QString QImg) (clock : Nat → Nat) (bs : QByteArray)
    (w : Worker QString QImg) (h : Settled w) : Settled (consume tk clock bs w) := by
  induction bs generalizing w with
  | nil => exact h
  | cons b bs ih =>
    by_cases hl : 0 < w.leftToRecv
    · rw [consume_cons_pos tk clock b bs w hl]
      apply ih
      left
      rw [received_readBuffer]
      rcases h with h | h
      · exact h
      · omega
    · have h0 : w.leftToRecv ≤ 0 := by omega
      rw [consume_stuck tk clock _ w h0]
      right
      exact h0

/-- Between two runs of `readData` the arrival of a chunk is its byte by byte
reading. -/
theorem feed_eq_consume (tk : Toolkit QString QImg) (clock : Nat → Nat) (chunk : QByteArray)
    (w : Worker QString QImg) (h : Settled w) :
    feed tk clock chunk w = consume tk clock chunk w := by
  unfold feed
  rw [readData_eq_consume, withInput_readBuffer, withInput_withInput]
  rcases h with h | h
  · rw [h, List.nil_append]
    have e : w.withInput [] = w := by rw [← h, withInput_self]
    rw [e]
  · rw [consume_stuck tk clock _ _ (by rw [withInput_leftToRecv]; exact h),
      consume_stuck tk clock _ w h, withInput_readBuffer, withInput_withInput, List.nil_append]

theorem feedAll_eq_consume (tk : Toolkit QString QImg) (clock : Nat → Nat)
    (chunks : List QByteArray) (w : Worker QString QImg) (h : Settled w) :
    feedAll tk clock chunks w = consume tk clock chunks.flatten w := by
  induction chunks generalizing w with
  | nil => rfl
  | cons c cs ih =>
    have e : feedAll tk clock (c :: cs) w = feedAll tk clock cs (feed tk clock c w) := rfl
    rw [e, feed_eq_consume tk clock c w h, ih _ (settled_consume tk clock c w h),
      List.flatten_cons, consume_append]

theorem settled_fresh : Settled (Worker.fresh QString QImg) := Or.inl rfl

theorem atHeader_fresh : AtHeader (Worker.fresh QString QImg) := ⟨rfl, rfl, rfl, rfl⟩

theorem shift_or_eq_sum (a b c d : Nat) (hb : b < 256) (hc : c < 256) (hd : d < 256) :
    (a <<< 24) ||| (b <<< 16) ||| (c <<< 8) ||| d = a * 2 ^ 24 + b * 2 ^ 16 + c * 2 ^ 8 + d := by
  have e1 : a <<< 24 = 2 ^ 24 * a := by rw [Nat.shiftLeft_eq]; ring
  have e2 : b <<< 16 = 2 ^ 16 * b := by rw [Nat.shiftLeft_eq]; ring
  have e3 : c <<< 8 = 2 ^ 8 * c := by rw [Nat.shiftLeft_eq]; ring
  have hd8 : d < 2 ^ 8 := by omega
  have h16 : 2 ^ 8 * c + d < 2 ^ 16 := by omega
  have h24 : 2 ^ 16 * b + (2 ^ 8 * c + d) < 2 ^ 24 := by omega
  rw [Nat.or_assoc, Nat.or_assoc, e1, e2, e3, ← Nat.mul_add_lt_is_or hd8,
    ← Nat.mul_add_lt_is_or h16, ← Nat.mul_add_lt_is_or h24]
  ring

theorem and_mask (a : Nat) : a &&& 0xFF = a % 256 := Nat.and_pow_two_sub_one_eq_mod a 8

/-- The length read back from the bytes `b1 b2 b3 b4`: their big-endian value,
as an `int`. -/
theorem headerLength_bytes (t b1 b2 b3 b4 : Nat) :
    headerLength [t, b1, b2, b3, b4]
      = wrap32 ((b1 % 256 : Nat) * 2 ^ 24 + (b2 % 256 : Nat) * 2 ^ 16
          + (b3 % 256 : Nat) * 2 ^ 8 + (b4 % 256 : Nat)) := by
  unfold headerLength
  simp only [List.getD_cons_succ, List.getD_cons_zero, and_mask]
  rw [shift_or_eq_sum _ _ _ _ (Nat.mod_lt _ (by norm_num)) (Nat.mod_lt _ (by norm_num))
    (Nat.mod_lt _ (by norm_num))]
  push_cast
  rfl

/-- The length read back from the header written for `size` is `size` as an `int`. -/
theorem headerLength_headerBytes (type : Nat) (size : Int) :
    headerLength (headerBytes type size) = wrap32 size := by
  unfold headerBytes
  rw [headerLength_bytes]
  simp only [Int.shiftRight_eq_div_pow, wrap32]
  push_cast
  omega

theorem wrap32_of_range (n : Int) (h0 : -(2 : Int) ^ 31 ≤ n) (h1 : n < 2 ^ 31) : wrap32 n = n := by
  unfold wrap32; omega

/-- Reading the five bytes of a header whose length is positive. -/
theorem received_header_pos (tk : Toolkit QString QImg) (clock : Nat → Nat)
    (t b1 b2 b3 b4 : Nat) (w : Worker QString QImg) (hw : AtHeader w)
    (hpos : 0 < headerLength [t, b1, b2, b3, b4]) :
    received tk clock [t, b1, b2, b3, b4] w
      = { w with type := t, leftToRecv := headerLength [t, b1, b2, b3, b4],
                 stage := ReadStage.BODY, recvBuf := [] } := by
  obtain ⟨hs, hl, hr, _⟩ := hw
  unfold received
  simp only [hs, hl, hr, List.nil_append, List.length_cons, List.length_nil, if_true]
  norm_num [hpos]

/-- Reading the five bytes of a header whose length is zero or negative: the
call of `processData` sees the header bytes in `recvBuf`, and `leftToRecv` keeps
the decoded length. -/
theorem received_header_nonpos (tk : Toolkit QString QImg) (clock : Nat → Nat)
    (t b1 b2 b3 b4 : Nat) (w : Worker QString QImg) (hw : AtHeader w)
    (hnp : headerLength [t, b1, b2, b3, b4] ≤ 0) :
    received tk clock [t, b1, b2, b3, b4] w
      = { processData tk (clock w.dispatched.length)
            { w with recvBuf := [t, b1, b2, b3, b4], type := t,
                     leftToRecv := headerLength [t, b1, b2, b3, b4] } with
          recvBuf := [] } := by
  obtain ⟨hs, hl, hr, _⟩ := hw
  have hnp2 : ¬ (headerLength [t, b1, b2, b3, b4] > 0) := by omega
  unfold received
  simp only [hs, hl, hr, List.nil_append, List.length_cons, List.length_nil, if_true]
  norm_num [hnp2]

/-- Reading the last bytes of a body. -/
theorem received_body (tk : Toolkit QString QImg) (clock : Nat → Nat) (data : QByteArray)
    (w : Worker QString QImg) (hs : w.stage = ReadStage.BODY) (hr : w.recvBuf = [])
    (hl : w.leftToRecv = data.length) :
    received tk clock data w
      = { processData tk (clock w.dispatched.length)
            { w with recvBuf := data, leftToRecv := 0 } with
          stage := ReadStage.HEADER, leftToRecv := headerLen, recvBuf := [] } := by
  unfold received
  simp [hs, hl, hr]

/-- A whole frame with a body of `n` bytes, `0 < n`, read from a header
boundary: one call of `processData` on the body, and a header boundary again. -/
theorem consume_frame (tk : Toolkit QString QImg) (clock : Nat → Nat) (t : Nat) (size : Int)
    (payload rest : QByteArray) (w : Worker QString QImg) (hw : AtHeader w) (ht : t < 256)
    (hpos : 0 < wrap32 size) (hlen : (payload.length : Int) = wrap32 size) :
    consume tk clock (headerBytes t size ++ (payload ++ rest)) w
      = consume tk clock rest (afterFrame tk clock t payload w) := by
  have hh : headerLength (headerBytes t size) = wrap32 size := headerLength_headerBytes t size
  have hne : payload ≠ [] := by
    intro e; rw [e] at hlen; simp at hlen; omega
  rw [consume_append_received tk clock _ _ w (by simp [headerBytes])
    (by rw [hw.2.1]; simp [headerBytes])]
  have e1 : received tk clock (headerBytes t size) w
      = { w with type := t, leftToRecv := wrap32 size, stage := ReadStage.BODY, recvBuf := [] } := by
    have h := received_header_pos tk clock (t % 256) ((size >>> (24 : Nat)) % 256).toNat
      ((size >>> (16 : Nat)) % 256).toNat ((size >>> (8 : Nat)) % 256).toNat (size % 256).toNat w hw
      (by have := hh; unfold headerBytes at this; rw [this]; exact hpos)
    have hh2 := hh
    unfold headerBytes at hh2 ⊢
    rw [h, hh2, Nat.mod_eq_of_lt ht]
  rw [e1, consume_append_received tk clock _ _ _ hne (by simp [hlen]),
    received_body tk clock payload _ rfl rfl (by simp [hlen])]
  rfl

theorem afterFrame_atHeader (tk : Toolkit QString QImg) (clock : Nat → Nat) (t : Nat)
    (payload : QByteArray) (w : Worker QString QImg) (hw : AtHeader w) :
    AtHeader (afterFrame tk clock t payload w) := by
  refine ⟨rfl, rfl, rfl, ?_⟩
  show (processData tk _ _).socket_.readBuffer = []
  rw [processData_socket]
  exact hw.2.2.2

theorem afterFrame_dispatched (tk : Toolkit QString QImg) (clock : Nat → Nat) (t : Nat)
    (payload : QByteArray) (w : Worker QString QImg) :
    (afterFrame tk clock t payload w).dispatched = w.dispatched ++ [(t, payload)] := by
  show (processData tk _ _).dispatched = _
  rw [processData_dispatched]

theorem code_lt (type : DataType) : type.code < 256 := by
  cases type <;> decide

/-- A sequence of frames with non-empty bodies below `2 ^ 31` bytes, read from
a header boundary. -/
theorem consume_frames (tk : Toolkit QString QImg) (clock : Nat → Nat)
    (frames : List (DataType × QByteArray)) (w : Worker QString QImg) (hw : AtHeader w)
    (hlen : ∀ f ∈ frames, 1 ≤ f.2.length ∧ f.2.length ≤ 2 ^ 31 - 1) :
    AtHeader (consume tk clock (frames.map (fun f => encode f.1 f.2)).flatten w)
      ∧ (consume tk clock (frames.map (fun f => encode f.1 f.2)).flatten w).dispatched
          = w.dispatched ++ frames.map (fun f => (f.1.code, f.2)) := by
  induction frames generalizing w with
  | nil => exact ⟨hw, by simp [consume]⟩
  | cons f fs ih =>
    have hf := hlen f (List.mem_cons_self _ _)
    have hw32 : wrap32 (f.2.length : Int) = f.2.length := by
      apply wrap32_of_range <;> omega
    have e : ((f :: fs).map (fun f => encode f.1 f.2)).flatten
        = headerBytes f.1.code (wrap32 f.2.length)
            ++ (f.2 ++ (fs.map (fun f => encode f.1 f.2)).flatten) := by
      simp [encode]
    have hw32b : wrap32 (wrap32 (f.2.length : Int)) = f.2.length := by rw [hw32, hw32]
    rw [e, consume_frame tk clock f.1.code _ f.2 _ w hw (code_lt f.1)
      (by rw [hw32b]; omega) (by rw [hw32b])]
    obtain ⟨h1, h2⟩ := ih (afterFrame tk clock f.1.code f.2 w)
      (afterFrame_atHeader tk clock _ _ w hw)
      (fun g hg => hlen g (List.mem_cons_of_mem _ hg))
    refine ⟨h1, ?_⟩
    rw [h2, afterFrame_dispatched]
    simp

/-- After the five bytes of a header, read from a header boundary, the member
`leftToRecv` holds the decoded length, also when it is zero or negative. -/
theorem feed_header_leftToRecv (tk : Toolkit QString QImg) (clock : Nat → Nat)
    (t b1 b2 b3 b4 : Nat) (w : Worker QString QImg) (hw : AtHeader w) :
    (feed tk clock [t, b1, b2, b3, b4] w).leftToRecv = headerLength [t, b1, b2, b3, b4] := by
  rw [feed_eq_consume tk clock _ w (Or.inl hw.2.2.2)]
  have e := consume_append_received tk clock [t, b1, b2, b3, b4] [] w (by simp)
    (by rw [hw.2.1]; simp)
  rw [List.append_nil] at e
  rw [e, consume_nil]
  by_cases hpos : 0 < headerLength [t, b1, b2, b3, b4]
  · rw [received_header_pos tk clock t b1 b2 b3 b4 w hw hpos]
  · rw [received_header_nonpos tk clock t b1 b2 b3 b4 w hw (by omega)]
    show (processData tk _ _).leftToRecv = _
    rw [processData_leftToRecv]

/-- A header with a zero or negative length, read from a header boundary:
`processData` runs at once on the header bytes, and the worker then asks for no
byte, so that every later byte stays unread. -/
theorem consume_header_nonpos (tk : Toolkit QString QImg) (clock : Nat → Nat)
    (t b1 b2 b3 b4 : Nat) (rest : QByteArray) (w : Worker QString QImg) (hw : AtHeader w)
    (hnp : headerLength [t, b1, b2, b3, b4] ≤ 0) :
    consume tk clock ([t, b1, b2, b3, b4] ++ rest) w
      = ({ processData tk (clock w.dispatched.length)
            { w with recvBuf := [t, b1, b2, b3, b4], type := t,
                     leftToRecv := headerLength [t, b1, b2, b3, b4] } with
          recvBuf := [] }).withInput rest := by
  rw [consume_append_received tk clock [t, b1, b2, b3, b4] rest w (by simp)
    (by rw [hw.2.1]; simp),
    received_header_nonpos tk clock t b1 b2 b3 b4 w hw hnp,
    consume_stuck tk clock rest _ (by
      show (processData tk _ _).leftToRecv ≤ 0
      rw [processData_leftToRecv]; exact hnp)]
  congr 1
  show (processData tk _ _).socket_.readBuffer ++ rest = rest
  rw [processData_socket, hw.2.2.2, List.nil_append]

/-- A frame whose payload has `2 ^ 31` bytes or more: its length is read as a
negative `int`, and the only call of `processData` sees the header bytes. -/
theorem large_frame_dispatched (tk : Toolkit QString QImg) (clock : Nat → Nat)
    (type : DataType) (payload : QByteArray) (h1 : 2 ^ 31 ≤ payload.length)
    (h2 : payload.length < 2 ^ 32) :
    (feedAll tk clock [encode type payload] (Worker.fresh QString QImg)).dispatched
      = [(type.code, headerBytes type.code (wrap32 payload.length))] := by
  rw [feedAll_eq_consume tk clock _ _ settled_fresh]
  have hh := headerLength_headerBytes type.code (wrap32 payload.length)
  have hneg : wrap32 (wrap32 (payload.length : Int)) ≤ 0 := by
    unfold wrap32; omega
  have ef : [encode type payload].flatten = encode type payload := by simp
  rw [ef]
  unfold encode
  unfold headerBytes at hh ⊢
  rw [consume_header_nonpos tk clock _ _ _ _ _ payload _ atHeader_fresh (by rw [hh]; exact hneg)]
  show (processData tk _ _).dispatched = _
  rw [processData_dispatched, Nat.mod_eq_of_lt (code_lt type)]
  rfl

/-- The header written for a size below `2 ^ 32`: the type byte and the four
bytes of the size, most significant first. -/
theorem headerBytes_of_nat (t n : Nat) (hn : n < 2 ^ 32) :
    headerBytes t (wrap32 n)
      = [t % 256, n / 2 ^ 24, n / 2 ^ 16 % 256, n / 2 ^ 8 % 256, n % 256] := by
  unfold headerBytes wrap32
  simp only [Int.shiftRight_eq_div_pow, List.cons.injEq, and_true, true_and]
  push_cast
  refine ⟨?_, ?_, ?_, ?_⟩ <;> omega

theorem writeText_written (tk : Toolkit QString QImg) (now : Nat) (str : QString)
    (w : Worker QString QImg) (hns : ¬ wrap64 ((now : Int) - w.setClipboardTime) < 1000) :
    (writeText tk now str w).socket_.written
      = w.socket_.written ++ encode DataType.TEXT (tk.toUtf8 str) := by
  unfold writeText
  simp only [hns, if_false]
  simp [writeHeader, QTcpSocket.write, encode]

theorem writeText_suppressed (tk : Toolkit QString QImg) (now : Nat) (str : QString)
    (w : Worker QString QImg) (hs : wrap64 ((now : Int) - w.setClipboardTime) < 1000) :
    writeText tk now str w = w := by
  unfold writeText
  simp only [hs, if_true]

theorem writeImage_written (tk : Toolkit QString QImg) (now : Nat) (img : QImg)
    (png : QByteArray) (w : Worker QString QImg)
    (hns : ¬ wrap64 ((now : Int) - w.setClipboardTime) < 1000) (hsave : tk.save img = some png) :
    (writeImage tk now (some img) w).socket_.written
      = w.socket_.written ++ encode DataType.IMAGE png := by
  unfold writeImage
  simp only [hns, if_false, Option.some_bind, hsave]
  simp [writeHeader, QTcpSocket.write, encode]

theorem forEachWorker_getElem? (body : Nat → Worker QString QImg → Worker QString QImg)
    (k : Nat) (m : WorkerMap QString QImg) (i : Nat) :
    (forEachWorker body k m)[i]? = (m[i]?).map (fun e => (e.1, body (k + i) e.2)) := by
  induction m generalizing k i with
  | nil => simp [forEachWorker]
  | cons e rest ih =>
    obtain ⟨socket, w⟩ := e
    cases i with
    | zero => simp [forEachWorker]
    | succ j =>
      simp only [forEachWorker, List.getElem?_cons_succ]
      rw [ih (k + 1) j]
      have e1 : k + 1 + j = k + (j + 1) := by omega
      rw [e1]

theorem forEachWorker_length (body : Nat → Worker QString QImg → Worker QString QImg)
    (k : Nat) (m : WorkerMap QString QImg) : (forEachWorker body k m).length = m.length := by
  induction m generalizing k with
  | nil => rfl
  | cons e rest ih =>
    obtain ⟨socket, w⟩ := e
    simp only [forEachWorker, List.length_cons, ih]

theorem find_erase_ne (m : WorkerMap QString QImg) (id k : Nat) (h : k ≠ id) :
    (m.erase id).find k = m.find k := by
  induction m with
  | nil => rfl
  | cons e rest ih =>
    unfold WorkerMap.find WorkerMap.erase at ih ⊢
    by_cases he : e.1 = id
    · have hk : ¬ (e.1 = k) := by rw [he]; exact fun h2 => h h2.symm
      simp only [List.filter_cons, he, bne_self_eq_false, Bool.false_eq_true, if_false,
        List.find?_cons]
      rw [ih]
      have : (id == k) = false := by
        rw [beq_eq_false_iff_ne]; rw [← he]; exact hk
      simp only [this]
    · have hne : (e.1 != id) = true := by simp [he]
      simp only [List.filter_cons, hne, if_true, List.find?_cons]
      cases hek : (e.1 == k)
      · simpa using ih
      · rfl

theorem find_erase_self (m : WorkerMap QString QImg) (id : Nat) : (m.erase id).find id = none := by
  unfold WorkerMap.find WorkerMap.erase
  simp [List.find?_eq_none]

theorem erase_of_find_none (m : WorkerMap QString QImg) (id : Nat) (h : m.find id = none) :
    m.erase id = m := by
  unfold WorkerMap.find at h
  unfold WorkerMap.erase
  simp only [Option.map_eq_none', List.find?_eq_none] at h
  rw [List.filter_eq_self]
  intro e he
  have := h e he
  simpa using this

theorem erase_erase (m : WorkerMap QString QImg) (id : Nat) :
    (m.erase id).erase id = m.erase id := by
  unfold WorkerMap.erase
  rw [List.filter_filter]
  simp

theorem headerLength_range (buf : QByteArray) :
    -(2 : Int) ^ 31 ≤ headerLength buf ∧ headerLength buf < 2 ^ 31 := by
  unfold headerLength wrap32
  omega

/-- A header is read as a negative length exactly when the top bit of its
first length byte is set. -/
theorem headerLength_neg_iff (buf : QByteArray) :
    headerLength buf < 0 ↔ 128 ≤ buf.getD 1 0 % 256 := by
  unfold headerLength
  simp only [and_mask]
  rw [shift_or_eq_sum _ _ _ _ (Nat.mod_lt _ (by norm_num)) (Nat.mod_lt _ (by norm_num))
    (Nat.mod_lt _ (by norm_num))]
  unfold wrap32
  push_cast
  omega

theorem lengthInv_received (tk : Toolkit QString QImg) (clock : Nat → Nat) (b : Nat)
    (w : Worker QString QImg) (h : LengthInv w) (hpos : 0 < w.leftToRecv) :
    LengthInv (received tk clock [b] w) := by
  obtain ⟨h1, h2, _⟩ := h
  unfold received
  dsimp only
  split_ifs with hz hs hp
  · refine ⟨?_, ?_, Or.inl ?_⟩
    · show -(2 : Int) ^ 31 ≤ headerLength (w.recvBuf ++ [b])
      exact (headerLength_range _).1
    · show headerLength (w.recvBuf ++ [b]) < 2 ^ 31
      exact (headerLength_range _).2
    · exact hp
  · refine ⟨?_, ?_, Or.inr ⟨((w.recvBuf ++ [b]).getD 0 0, w.recvBuf ++ [b]), ?_, ?_⟩⟩
    · show -(2 : Int) ^ 31 ≤ (processData tk _ _).leftToRecv
      rw [processData_leftToRecv]; exact (headerLength_range _).1
    · show (processData tk _ _).leftToRecv < 2 ^ 31
      rw [processData_leftToRecv]; exact (headerLength_range _).2
    · show (processData tk _ _).dispatched.getLast? = _
      rw [processData_dispatched]
      simp
    · show (processData tk _ _).leftToRecv = _
      rw [processData_leftToRecv]
  · refine ⟨?_, ?_, Or.inl ?_⟩
    · show -(2 : Int) ^ 31 ≤ headerLen
      simp [headerLen]
    · show headerLen < 2 ^ 31
      simp [headerLen]
    · show 0 < headerLen
      simp [headerLen]
  · have hz2 : ¬ (w.leftToRecv - 1 = 0) := by simpa using hz
    refine ⟨?_, ?_, Or.inl ?_⟩
    · show -(2 : Int) ^ 31 ≤ w.leftToRecv - (([b] : QByteArray).length : Int)
      simp only [List.length_cons, List.length_nil, zero_add, Nat.cast_one]
      omega
    · show w.leftToRecv - (([b] : QByteArray).length : Int) < 2 ^ 31
      simp only [List.length_cons, List.length_nil, zero_add, Nat.cast_one]
      omega
    · show 0 < w.leftToRecv - (([b] : QByteArray).length : Int)
      simp only [List.length_cons, List.length_nil, zero_add, Nat.cast_one]
      omega

theorem lengthInv_consume (tk : Toolkit QString QImg) (clock : Nat → Nat) (bs : QByteArray)
    (w : Worker QString QImg) (h : LengthInv w) : LengthInv (consume tk clock bs w) := by
  induction bs generalizing w with
  | nil => exact h
  | cons b bs ih =>
    by_cases hl : 0 < w.leftToRecv
    · rw [consume_cons_pos tk clock b bs w hl]
      exact ih _ (lengthInv_received tk clock b w h hl)
    · rw [consume_stuck tk clock _ w (by omega)]
      exact h

theorem lengthInv_fresh : LengthInv (Worker.fresh QString QImg) :=
  ⟨by simp [Worker.fresh, headerLen], by simp [Worker.fresh, headerLen],
    Or.inl (by simp [Worker.fresh, headerLen])⟩

/-- A call of `processData` for a type other than TEXT and IMAGE makes no call
on the clipboard and keeps `setClipboardTime`. -/
theorem processData_inert (tk : Toolkit QString QImg) (now : Nat) (w : Worker QString QImg)
    (h1 : w.type ≠ 1) (h2 : w.type ≠ 2) :
    (processData tk now w).clipboard = w.clipboard
      ∧ (processData tk now w).setClipboardTime = w.setClipboardTime := by
  unfold processData
  split
  · exact absurd (by assumption) h2
  · exact absurd (by assumption) h1
  · exact ⟨rfl, rfl⟩
  · exact ⟨rfl, rfl⟩

/-- A call of `processData` for the type TEXT. -/
theorem processData_text (tk : Toolkit QString QImg) (now : Nat) (w : Worker QString QImg)
    (h : w.type = 1) :
    (processData tk now w).clipboard = w.clipboard ++ [SinkCall.setText (tk.fromUtf8 w.recvBuf)]
      ∧ (processData tk now w).setClipboardTime = wrap64 now := by
  unfold processData
  rw [h]
  exact ⟨rfl, rfl⟩

/-- The frame with type byte `t` and body `payload`, fed in any chunking to a
worker at a header boundary. -/
theorem feedAll_frame (tk : Toolkit QString QImg) (clock : Nat → Nat) (t : Nat) (size : Int)
    (payload : QByteArray) (chunks : List QByteArray) (w : Worker QString QImg)
    (hw : AtHeader w) (ht : t < 256) (hpos : 0 < wrap32 size)
    (hlen : (payload.length : Int) = wrap32 size)
    (hchunks : chunks.flatten = headerBytes t size ++ payload) :
    feedAll tk clock chunks w = afterFrame tk clock t payload w := by
  rw [feedAll_eq_consume tk clock chunks w (Or.inl hw.2.2.2), hchunks]
  have h := consume_frame tk clock t size payload [] w hw ht hpos hlen
  rw [List.append_nil, consume_nil] at h
  exact h

theorem afterFrame_inert (tk : Toolkit QString QImg) (clock : Nat → Nat) (t : Nat)
    (payload : QByteArray) (w : Worker QString QImg) (h1 : t ≠ 1) (h2 : t ≠ 2) :
    (afterFrame tk clock t payload w).clipboard = w.clipboard
      ∧ (afterFrame tk clock t payload w).setClipboardTime = w.setClipboardTime := by
  have h := processData_inert tk (clock w.dispatched.length)
    { w with recvBuf := payload, type := t, leftToRecv := 0, stage := ReadStage.BODY } h1 h2
  exact h

theorem afterFrame_text (tk : Toolkit QString QImg) (clock : Nat → Nat)
    (payload : QByteArray) (w : Worker QString QImg) :
    (afterFrame tk clock 1 payload w).clipboard
        = w.clipboard ++ [SinkCall.setText (tk.fromUtf8 payload)]
      ∧ (afterFrame tk clock 1 payload w).setClipboardTime
        = wrap64 (clock w.dispatched.length) := by
  have h := processData_text tk (clock w.dispatched.length)
    { w with recvBuf := payload, type := 1, leftToRecv := 0, stage := ReadStage.BODY } rfl
  exact h

/-- Every state reached from a fresh worker by feeding chunks is a state
between two runs of `readData`. -/
theorem settled_feedAll (tk : Toolkit QString QImg) (clock : Nat → Nat)
    (chunks : List QByteArray) : Settled (feedAll tk clock chunks (Worker.fresh QString QImg)) := by
  rw [feedAll_eq_consume tk clock chunks _ settled_fresh]
  exact settled_consume tk clock _ _ settled_fresh

/-- A run of `readData` between two arrivals changes nothing. -/
theorem readData_settled (tk : Toolkit QString QImg) (clock : Nat → Nat)
    (w : Worker QString QImg) (h : Settled w) : readData tk clock w = w := by
  rw [readData_eq_consume]
  rcases h with h | h
  · rw [h, consume_nil, ← h, withInput_self]
  · rw [consume_stuck tk clock _ _ (by rw [withInput_leftToRecv]; exact h),
      withInput_readBuffer, withInput_withInput, List.nil_append, withInput_self]

/-- Two arrivals between runs of `readData` are one arrival of both chunks. -/
theorem feed_feed (tk : Toolkit QString QImg) (clock : Nat → Nat) (a b : QByteArray)
    (w : Worker QString QImg) (h : Settled w) :
    feed tk clock b (feed tk clock a w) = feed tk clock (a ++ b) w := by
  rw [feed_eq_consume tk clock a w h, feed_eq_consume tk clock (a ++ b) w h,
    feed_eq_consume tk clock b _ (settled_consume tk clock a w h), consume_append]

theorem writeImage_suppressed (tk : Toolkit QString QImg) (now : Nat) (img : Option QImg)
    (w : Worker QString QImg) (hs : wrap64 ((now : Int) - w.setClipboardTime) < 1000) :
    writeImage tk now img w = w := by
  unfold writeImage
  simp only [hs, if_true]

theorem writeImage_setClipboardTime (tk : Toolkit QString QImg) (now : Nat) (img : Option QImg)
    (w : Worker QString QImg) :
    (writeImage tk now img w).setClipboardTime = w.setClipboardTime := by
  unfold writeImage
  split
  · rfl
  · split <;> rfl

/-- The bytes written by `writeImage` when it is not suppressed: nothing when
the image is null or is not saved, else one IMAGE frame. -/
theorem writeImage_written_general (tk : Toolkit QString QImg) (now : Nat) (img : Option QImg)
    (w : Worker QString QImg) (hns : ¬ wrap64 ((now : Int) - w.setClipboardTime) < 1000) :
    (writeImage tk now img w).socket_.written
      = w.socket_.written ++ ((img.bind tk.save).map (encode DataType.IMAGE)).getD [] := by
  unfold writeImage
  simp only [hns, if_false]
  cases h : img.bind tk.save with
  | none => simp
  | some png => simp [writeHeader, QTcpSocket.write, encode]

/-- Whatever the clock, `writeImage` writes nothing or one IMAGE frame made of
the bytes the image was saved as. -/
theorem writeImage_cases (tk : Toolkit QString QImg) (now : Nat) (img : Option QImg)
    (w : Worker QString QImg) :
    (writeImage tk now img w).socket_.written = w.socket_.written
      ∨ ∃ i png, img = some i ∧ tk.save i = some png
          ∧ (writeImage tk now img w).socket_.written
              = w.socket_.written ++ encode DataType.IMAGE png := by
  by_cases hs : wrap64 ((now : Int) - w.setClipboardTime) < 1000
  · left; rw [writeImage_suppressed tk now img w hs]
  · cases img with
    | none => left; rw [writeImage_written_general tk now none w hs]; simp
    | some i =>
      cases hsave : tk.save i with
      | none =>
        left
        rw [writeImage_written_general tk now (some i) w hs]
        simp [hsave]
      | some png =>
        right
        exact ⟨i, png, rfl, hsave, writeImage_written tk now i png w hs hsave⟩

theorem writeText_cases (tk : Toolkit QString QImg) (now : Nat) (str : QString)
    (w : Worker QString QImg) :
    (writeText tk now str w).socket_.written = w.socket_.written
      ∨ (writeText tk now str w).socket_.written
          = w.socket_.written ++ encode DataType.TEXT (tk.toUtf8 str) := by
  by_cases hs : wrap64 ((now : Int) - w.setClipboardTime) < 1000
  · left; rw [writeText_suppressed tk now str w hs]
  · right; exact writeText_written tk now str w hs

/-- The entry at position `j` after `onClipboardChange`: the worker at that
position with `writeImage` applied when the image is not null, and then
`writeText` applied when the text is not empty. -/
theorem onClipboardChange_getElem? (tk : Toolkit QString QImg) (clock : Nat → Nat)
    (img : Option QImg) (txt : QString) (l : ClipBoardListener QString QImg) (j : Nat) :
    (onClipboardChange tk clock img txt l).workerMap[j]?
      = (l.workerMap[j]?).map (fun e => (e.1,
          (if tk.isEmpty txt then id
            else writeText tk (clock ((if img.isSome then l.workerMap.length else 0) + j)) txt)
          ((if img.isSome then writeImage tk (clock j) img else id) e.2))) := by
  unfold onClipboardChange
  cases himg : img.isSome <;> cases htxt : tk.isEmpty txt <;>
    simp [forEachWorker_getElem?, Function.comp_def]

/-- The layout of a frame whose payload has fewer than `2 ^ 32` bytes. -/
theorem encode_layout (type : DataType) (payload : QByteArray) (h : payload.length < 2 ^ 32) :
    encode type payload
      = [type.code, payload.length / 2 ^ 24, payload.length / 2 ^ 16 % 256,
          payload.length / 2 ^ 8 % 256, payload.length % 256] ++ payload := by
  unfold encode
  rw [headerBytes_of_nat type.code payload.length h, Nat.mod_eq_of_lt (code_lt type)]

/-- The handler of `readyRead` for one socket leaves the worker of every other
socket as it is. -/
theorem find_socketReadyRead_ne (tk : Toolkit QString QImg) (clock : Nat → Nat)
    (socket k : Nat) (chunk : QByteArray) (l : ClipBoardListener QString QImg) (h : k ≠ socket) :
    (socketReadyRead tk clock socket chunk l).workerMap.find k = l.workerMap.find k := by
  unfold socketReadyRead
  split
  · rfl
  · dsimp only
    generalize l.workerMap = m
    induction m with
    | nil => rfl
    | cons e rest ih =>
      unfold WorkerMap.find at ih ⊢
      by_cases he : e.1 = socket
      · have hk : (e.1 == k) = false := by
          rw [beq_eq_false_iff_ne, he]; exact fun h2 => h h2.symm
        simp only [List.map_cons, he, beq_self_eq_true, if_true, List.find?_cons]
        rw [he] at hk
        simp only [hk]
        exact ih
      · have hne : (e.1 == socket) = false := by rw [beq_eq_false_iff_ne]; exact he
        simp only [List.map_cons, hne, Bool.false_eq_true, if_false, List.find?_cons]
        cases hek : (e.1 == k)
        · exact ih
        · rfl

/-- A header whose length is zero or negative, fed to a worker at a header
boundary: `leftToRecv` keeps the decoded length, the stage stays HEADER, the
call of `processData` sees the header bytes, and every later chunk stays
unread. -/
theorem feed_header_nonpos (tk : Toolkit QString QImg) (clock : Nat → Nat)
    (t b1 b2 b3 b4 : Nat) (w : Worker QString QImg) (hw : AtHeader w)
    (hnp : headerLength [t, b1, b2, b3, b4] ≤ 0) :
    (feed tk clock [t, b1, b2, b3, b4] w).leftToRecv = headerLength [t, b1, b2, b3, b4]
      ∧ (feed tk clock [t, b1, b2, b3, b4] w).stage = ReadStage.HEADER
      ∧ (feed tk clock [t, b1, b2, b3, b4] w).dispatched
          = w.dispatched ++ [(t, [t, b1, b2, b3, b4])]
      ∧ ∀ later : QByteArray,
          feed tk clock later (feed tk clock [t, b1, b2, b3, b4] w)
            = (feed tk clock [t, b1, b2, b3, b4] w).withInput later := by
  have e : feed tk clock [t, b1, b2, b3, b4] w
      = ({ processData tk (clock w.dispatched.length)
            { w with recvBuf := [t, b1, b2, b3, b4], type := t,
                     leftToRecv := headerLength [t, b1, b2, b3, b4] } with
          recvBuf := [] }).withInput [] := by
    rw [feed_eq_consume tk clock _ w (Or.inl hw.2.2.2)]
    have h := consume_header_nonpos tk clock t b1 b2 b3 b4 [] w hw hnp
    rw [List.append_nil] at h
    exact h
  have hleft : (feed tk clock [t, b1, b2, b3, b4] w).leftToRecv
      = headerLength [t, b1, b2, b3, b4] :=
    feed_header_leftToRecv tk clock t b1 b2 b3 b4 w hw
  refine ⟨hleft, ?_, ?_, ?_⟩
  · rw [e]
    show (processData tk _ _).stage = _
    rw [processData_stage]
    exact hw.1
  · rw [e]
    show (processData tk _ _).dispatched = _
    rw [processData_dispatched]
  · intro later
    have hrb : (feed tk clock [t, b1, b2, b3, b4] w).socket_.readBuffer = [] := by
      rw [e]; rfl
    rw [feed_eq_consume tk clock later _ (Or.inr (by rw [hleft]; exact hnp)),
      consume_stuck tk clock later _ (by rw [hleft]; exact hnp), hrb, List.nil_append]

/-- In every state reached from a fresh worker by feeding chunks, `leftToRecv`
is negative only when the last call of `processData` was the one made by the
branch of `readData` for a header length that is not positive, on a header
whose first length byte is 128 or more. -/
theorem feedAll_leftToRecv_range (tk : Toolkit QString QImg) (clock : Nat → Nat)
    (chunks : List QByteArray) :
    -(2 : Int) ^ 31 ≤ (feedAll tk clock chunks (Worker.fresh QString QImg)).leftToRecv
      ∧ (feedAll tk clock chunks (Worker.fresh QString QImg)).leftToRecv < 2 ^ 31
      ∧ (0 ≤ (feedAll tk clock chunks (Worker.fresh QString QImg)).leftToRecv
          ∨ ∃ e, (feedAll tk clock chunks (Worker.fresh QString QImg)).dispatched.getLast?
                = some e
              ∧ (feedAll tk clock chunks (Worker.fresh QString QImg)).leftToRecv
                = headerLength e.2
              ∧ 128 ≤ e.2.getD 1 0 % 256) := by
  rw [feedAll_eq_consume tk clock chunks _ settled_fresh]
  obtain ⟨h1, h2, h3⟩ := lengthInv_consume tk clock chunks.flatten _
    (lengthInv_fresh : LengthInv (Worker.fresh QString QImg))
  refine ⟨h1, h2, ?_⟩
  rcases h3 with h3 | ⟨e, he1, he2⟩
  · exact Or.inl (by omega)
  · by_cases hneg : (consume tk clock chunks.flatten (Worker.fresh QString QImg)).leftToRecv < 0
    · refine Or.inr ⟨e, he1, he2, ?_⟩
      rw [he2] at hneg
      exact (headerLength_neg_iff e.2).mp hneg
    · exact Or.inl (by omega)

end Lemmas

section Claims

variable {QString QImg : Type}

/-- C1 fails as stated, at two valid frames. The QUERY frame with an empty
payload is dispatched with the five header bytes as payload buffer, not with
the empty payload. The TEXT frame whose payload is 2^31 zero bytes is
dispatched with its five header bytes as payload buffer, not with its
payload. -/
theorem C1_counterexample :
    encode DataType.QUERY [] = [0, 0, 0, 0, 0]
      ∧ (feedAll demoToolkit (fun _ => 0) [encode DataType.QUERY []]
          (Worker.fresh QByteArray QByteArray)).dispatched = [(0, [0, 0, 0, 0, 0])]
      ∧ (feedAll demoToolkit (fun _ => 0) [encode DataType.QUERY []]
          (Worker.fresh QByteArray QByteArray)).dispatched ≠ [(DataType.QUERY.code, [])]
      ∧ (feedAll demoToolkit (fun _ => 0) [encode DataType.TEXT (List.replicate 2147483648 0)]
          (Worker.fresh QByteArray QByteArray)).dispatched
            ≠ [(DataType.TEXT.code, List.replicate 2147483648 0)] := by
  refine ⟨by decide, by decide, by decide, ?_⟩
  have hl : (List.replicate 2147483648 0 : QByteArray).length = 2147483648 :=
    List.length_replicate _ _
  rw [large_frame_dispatched demoToolkit (fun _ => 0) DataType.TEXT _
    (by rw [hl]; norm_num) (by rw [hl]; norm_num)]
  intro h
  have h5 : (headerBytes DataType.TEXT.code
      (wrap32 ((List.replicate 2147483648 0 : QByteArray).length : Int))).length = 5 := rfl
  have hp := congrArg (fun l => l.map (fun e => e.2.length)) h
  simp only [List.map_cons, List.map_nil, List.cons.injEq, and_true] at hp
  rw [h5, hl] at hp
  omega

/-- C1, as amended. For every frame of type QUERY, TEXT or IMAGE whose payload
has between 1 and 2^31 - 1 bytes, and every way of splitting the bytes of the
frame into consecutive chunks (empty chunks and one byte per chunk included),
feeding the chunks in order to a fresh worker makes exactly one call of
processData, with the type and the payload of the frame, and the worker ends in
stage HEADER with leftToRecv = 5 and an empty recvBuf. -/
theorem C1_single_frame_any_chunking (tk : Toolkit QString QImg) (clock : Nat → Nat)
    (type : DataType) (payload : QByteArray) (chunks : List QByteArray)
    (hlen : 1 ≤ payload.length ∧ payload.length ≤ 2 ^ 31 - 1)
    (hchunks : chunks.flatten = encode type payload) :
    (feedAll tk clock chunks (Worker.fresh QString QImg)).dispatched = [(type.code, payload)]
      ∧ (feedAll tk clock chunks (Worker.fresh QString QImg)).stage = ReadStage.HEADER
      ∧ (feedAll tk clock chunks (Worker.fresh QString QImg)).leftToRecv = 5
      ∧ (feedAll tk clock chunks (Worker.fresh QString QImg)).recvBuf = [] := by
  have h := consume_frames tk clock [(type, payload)] (Worker.fresh QString QImg) atHeader_fresh
    (by intro f hf; simp at hf; subst hf; exact hlen)
  have e : ([(type, payload)].map (fun f => encode f.1 f.2)).flatten = chunks.flatten := by
    rw [hchunks]; simp
  rw [e, ← feedAll_eq_consume tk clock chunks _ settled_fresh] at h
  obtain ⟨⟨h1, h2, h3, _⟩, h4⟩ := h
  exact ⟨by rw [h4]; rfl, h1, h2, h3⟩

/-- Witness of C1: the TEXT frame of the one byte 120, split inside its header. -/
theorem C1_single_frame_any_chunking_witness :
    (feedAll demoToolkit (fun _ => 0) [[1, 0], [0, 0, 1, 120]]
        (Worker.fresh QByteArray QByteArray)).dispatched = [(DataType.TEXT.code, [120])]
      ∧ (feedAll demoToolkit (fun _ => 0) [[1, 0], [0, 0, 1, 120]]
        (Worker.fresh QByteArray QByteArray)).stage = ReadStage.HEADER
      ∧ (feedAll demoToolkit (fun _ => 0) [[1, 0], [0, 0, 1, 120]]
        (Worker.fresh QByteArray QByteArray)).leftToRecv = 5
      ∧ (feedAll demoToolkit (fun _ => 0) [[1, 0], [0, 0, 1, 120]]
        (Worker.fresh QByteArray QByteArray)).recvBuf = [] :=
  C1_single_frame_any_chunking demoToolkit (fun _ => 0) DataType.TEXT [120]
    [[1, 0], [0, 0, 1, 120]] (by decide) (by decide)

/-- C2, what the code does: in a worker at a header boundary the header
[t, 0, 0, 0, 0] makes one call of processData whose payload buffer is the five
header bytes (not the empty payload), and leaves stage HEADER with an empty
recvBuf but leftToRecv = 0 (not 5), so that the worker reads no byte of
whatever arrives later. -/
theorem C2_zero_length_header (tk : Toolkit QString QImg) (clock : Nat → Nat) (t : Nat)
    (w : Worker QString QImg) (hw : AtHeader w) :
    (feed tk clock [t, 0, 0, 0, 0] w).dispatched = w.dispatched ++ [(t, [t, 0, 0, 0, 0])]
      ∧ (feed tk clock [t, 0, 0, 0, 0] w).stage = ReadStage.HEADER
      ∧ (feed tk clock [t, 0, 0, 0, 0] w).leftToRecv = 0
      ∧ (feed tk clock [t, 0, 0, 0, 0] w).recvBuf = []
      ∧ ∀ later : QByteArray,
          feed tk clock later (feed tk clock [t, 0, 0, 0, 0] w)
            = (feed tk clock [t, 0, 0, 0, 0] w).withInput later := by
  have hz : headerLength [t, 0, 0, 0, 0] = 0 := by
    rw [headerLength_bytes]; norm_num [wrap32]
  have e : feed tk clock [t, 0, 0, 0, 0] w
      = ({ processData tk (clock w.dispatched.length)
            { w with recvBuf := [t, 0, 0, 0, 0], type := t,
                     leftToRecv := headerLength [t, 0, 0, 0, 0] } with
          recvBuf := [] }).withInput [] := by
    rw [feed_eq_consume tk clock _ w (Or.inl hw.2.2.2)]
    have h := consume_header_nonpos tk clock t 0 0 0 0 [] w hw (by rw [hz])
    rw [List.append_nil] at h
    exact h
  have hleft : (feed tk clock [t, 0, 0, 0, 0] w).leftToRecv = 0 := by
    rw [feed_header_leftToRecv tk clock t 0 0 0 0 w hw, hz]
  refine ⟨?_, ?_, hleft, ?_, ?_⟩
  · rw [e]
    show (processData tk _ _).dispatched = _
    rw [processData_dispatched]
  · rw [e]
    show (processData tk _ _).stage = _
    rw [processData_stage]
    exact hw.1
  · rw [e]; rfl
  · intro later
    have hrb : (feed tk clock [t, 0, 0, 0, 0] w).socket_.readBuffer = [] := by
      rw [e]; rfl
    rw [feed_eq_consume tk clock later _ (Or.inr (by rw [hleft])),
      consume_stuck tk clock later _ (by rw [hleft]), hrb, List.nil_append]

/-- Witness of C2: the header of a TEXT frame of length 0 fed to a fresh worker. -/
theorem C2_zero_length_header_witness :
    (feed demoToolkit (fun _ => 0) [1, 0, 0, 0, 0]
        (Worker.fresh QByteArray QByteArray)).dispatched = [(1, [1, 0, 0, 0, 0])]
      ∧ (feed demoToolkit (fun _ => 0) [1, 0, 0, 0, 0]
        (Worker.fresh QByteArray QByteArray)).leftToRecv = 0
      ∧ (feed demoToolkit (fun _ => 0) [1, 0, 0, 0, 0]
        (Worker.fresh QByteArray QByteArray)).clipboard
          = [SinkCall.setText [1, 0, 0, 0, 0]] :=
  ⟨(C2_zero_length_header demoToolkit (fun _ => 0) 1 (Worker.fresh QByteArray QByteArray)
      atHeader_fresh).1,
    (C2_zero_length_header demoToolkit (fun _ => 0) 1 (Worker.fresh QByteArray QByteArray)
      atHeader_fresh).2.2.1,
    by decide⟩

/-- C3, what the code does: after the header [99, 0, 0, 0, 0] a fresh worker
reads nothing more. Whatever the payload p and the chunking, the stream
[99, 0, 0, 0, 0] followed by the TEXT frame of p makes no call on the clipboard
at all (setText is never called), the only call of processData is the one for
type 99, and the whole TEXT frame stays unread in the socket. -/
theorem C3_unknown_type_blocks_stream (tk : Toolkit QString QImg) (clock : Nat → Nat)
    (p : QByteArray) (chunks : List QByteArray)
    (hchunks : chunks.flatten = [99, 0, 0, 0, 0] ++ encode DataType.TEXT p) :
    (feedAll tk clock chunks (Worker.fresh QString QImg)).clipboard = []
      ∧ (feedAll tk clock chunks (Worker.fresh QString QImg)).dispatched
          = [(99, [99, 0, 0, 0, 0])]
      ∧ (feedAll tk clock chunks (Worker.fresh QString QImg)).leftToRecv = 0
      ∧ (feedAll tk clock chunks (Worker.fresh QString QImg)).socket_.readBuffer
          = encode DataType.TEXT p := by
  rw [feedAll_eq_consume tk clock chunks _ settled_fresh, hchunks,
    consume_header_nonpos tk clock 99 0 0 0 0 _ _ atHeader_fresh (by decide)]
  exact ⟨rfl, rfl, rfl, rfl⟩

/-- Witness of C3: the payload is the one byte 120 and the stream arrives in
two chunks. -/
theorem C3_unknown_type_blocks_stream_witness :
    (feedAll demoToolkit (fun _ => 0) [[99, 0, 0, 0, 0], [1, 0, 0, 0, 1, 120]]
        (Worker.fresh QByteArray QByteArray)).clipboard = []
      ∧ (feedAll demoToolkit (fun _ => 0) [[99, 0, 0, 0, 0], [1, 0, 0, 0, 1, 120]]
        (Worker.fresh QByteArray QByteArray)).dispatched = [(99, [99, 0, 0, 0, 0])]
      ∧ (feedAll demoToolkit (fun _ => 0) [[99, 0, 0, 0, 0], [1, 0, 0, 0, 1, 120]]
        (Worker.fresh QByteArray QByteArray)).leftToRecv = 0
      ∧ (feedAll demoToolkit (fun _ => 0) [[99, 0, 0, 0, 0], [1, 0, 0, 0, 1, 120]]
        (Worker.fresh QByteArray QByteArray)).socket_.readBuffer
          = encode DataType.TEXT [120] :=
  C3_unknown_type_blocks_stream demoToolkit (fun _ => 0) [120]
    [[99, 0, 0, 0, 0], [1, 0, 0, 0, 1, 120]] (by decide)

/-- C4 fails as stated at the maximum n = 4294967295: writeHeader emits the
length bytes 255, 255, 255, 255 and readData computes -1 from them. -/
theorem C4_counterexample :
    headerBytes DataType.TEXT.code (wrap32 4294967295) = [1, 255, 255, 255, 255]
      ∧ (feed demoToolkit (fun _ => 0) (headerBytes DataType.TEXT.code (wrap32 4294967295))
          (Worker.fresh QByteArray QByteArray)).leftToRecv = -1
      ∧ (feed demoToolkit (fun _ => 0) (headerBytes DataType.TEXT.code (wrap32 4294967295))
          (Worker.fresh QByteArray QByteArray)).leftToRecv ≠ 4294967295 := by
  decide

/-- C4, as amended. The header length field is decoded as a big-endian 32 bit
two-complement integer: the length bytes [0, 0, 1, 0] set leftToRecv to 256,
and for every n below 2^32 the value readData computes from the four length
bytes that writeHeader emits for size n is n when n is at most 2^31 - 1 (in
particular for 0, 1, 255, 65536 and 2147483647) and n - 2^32 otherwise. -/
theorem C4_length_roundtrip (tk : Toolkit QString QImg) (clock : Nat → Nat) (t n : Nat)
    (hn : n < 2 ^ 32) :
    (feed tk clock [t, 0, 0, 1, 0] (Worker.fresh QString QImg)).leftToRecv = 256
      ∧ (feed tk clock (headerBytes t (wrap32 n)) (Worker.fresh QString QImg)).leftToRecv
          = if n < 2 ^ 31 then (n : Int) else (n : Int) - 2 ^ 32 := by
  constructor
  · rw [feed_header_leftToRecv tk clock t 0 0 1 0 _ atHeader_fresh, headerLength_bytes]
    norm_num [wrap32]
  · have hh := headerLength_headerBytes t (wrap32 n)
    unfold headerBytes at hh ⊢
    rw [feed_header_leftToRecv tk clock _ _ _ _ _ _ atHeader_fresh, hh]
    unfold wrap32
    split <;> omega

/-- Witness of C4: the largest length that is read back unchanged. -/
theorem C4_length_roundtrip_witness :
    (feed demoToolkit (fun _ => 0) [1, 0, 0, 1, 0]
        (Worker.fresh QByteArray QByteArray)).leftToRecv = 256
      ∧ (feed demoToolkit (fun _ => 0) (headerBytes 1 (wrap32 (2147483647 : Nat)))
          (Worker.fresh QByteArray QByteArray)).leftToRecv
          = if 2147483647 < 2 ^ 31 then ((2147483647 : Nat) : Int)
            else ((2147483647 : Nat) : Int) - 2 ^ 32 :=
  C4_length_roundtrip demoToolkit (fun _ => 0) 1 2147483647 (by norm_num)

/-- C5. When writeText(s) is not suppressed and the UTF-8 encoding of s has
n bytes, n below 2^32 (the range of the length field), the bytes it writes to
the socket are, in order, the byte 1, then n div 2^24, n div 2^16 mod 256,
n div 2^8 mod 256, n mod 256, then the n bytes of the encoding: 5 + n bytes.
writeImage, when not suppressed and when the image is saved as PNG bytes, writes
the same layout with type byte 2 and the PNG bytes. -/
theorem C5_outbound_frame_layout (tk : Toolkit QString QImg) (now : Nat) (s : QString)
    (img : QImg) (png : QByteArray) (w : Worker QString QImg)
    (hns : ¬ wrap64 ((now : Int) - w.setClipboardTime) < 1000)
    (hs : (tk.toUtf8 s).length < 2 ^ 32)
    (hsave : tk.save img = some png) (hpng : png.length < 2 ^ 32) :
    (writeText tk now s w).socket_.written
        = w.socket_.written
          ++ ([1, (tk.toUtf8 s).length / 2 ^ 24, (tk.toUtf8 s).length / 2 ^ 16 % 256,
               (tk.toUtf8 s).length / 2 ^ 8 % 256, (tk.toUtf8 s).length % 256]
              ++ tk.toUtf8 s)
      ∧ (writeText tk now s w).socket_.written.length
          = w.socket_.written.length + (5 + (tk.toUtf8 s).length)
      ∧ (writeImage tk now (some img) w).socket_.written
          = w.socket_.written
            ++ ([2, png.length / 2 ^ 24, png.length / 2 ^ 16 % 256,
                 png.length / 2 ^ 8 % 256, png.length % 256] ++ png)
      ∧ (writeImage tk now (some img) w).socket_.written.length
          = w.socket_.written.length + (5 + png.length) := by
  have e1 := writeText_written tk now s w hns
  have e2 := writeImage_written tk now img png w hns hsave
  have b1 := headerBytes_of_nat DataType.TEXT.code (tk.toUtf8 s).length hs
  have b2 := headerBytes_of_nat DataType.IMAGE.code png.length hpng
  unfold encode at e1 e2
  rw [b1] at e1
  rw [b2] at e2
  refine ⟨e1, ?_, e2, ?_⟩
  · rw [e1]; simp; omega
  · rw [e2]; simp; omega

/-- Witness of C5: the text of the one byte 120 and the image of the two
bytes 137, 80, written by a fresh worker at clock time 5000. -/
theorem C5_outbound_frame_layout_witness :
    (writeText demoToolkit 5000 [120] (Worker.fresh QByteArray QByteArray)).socket_.written
        = [1, 0, 0, 0, 1, 120]
      ∧ (writeImage demoToolkit 5000 (some [137, 80])
          (Worker.fresh QByteArray QByteArray)).socket_.written = [2, 0, 0, 0, 2, 137, 80] :=
  ⟨(C5_outbound_frame_layout demoToolkit 5000 [120] [137, 80] [137, 80]
      (Worker.fresh QByteArray QByteArray) (by decide) (by decide) rfl (by decide)).1,
    (C5_outbound_frame_layout demoToolkit 5000 [120] [137, 80] [137, 80]
      (Worker.fresh QByteArray QByteArray) (by decide) (by decide) rfl (by decide)).2.2.1⟩

/-- C6. Echo suppression window: if a worker dispatched a TEXT frame at clock
time T, then for every later clock value now (T at most now, both 64 bit
values) writeText on that worker writes nothing when now - T is below 1000,
and appends exactly one complete TEXT frame to the bytes written when now - T
is at least 1000. -/
theorem C6_echo_suppression (tk : Toolkit QString QImg) (T now : Nat) (str : QString)
    (w : Worker QString QImg) (htype : w.type = DataType.TEXT.code) (hT : T ≤ now)
    (hnow : now < 2 ^ 64) :
    (processData tk T w).setClipboardTime = T
      ∧ (writeText tk now str (processData tk T w)).socket_.written
          = (if now - T < 1000 then w.socket_.written
              else w.socket_.written ++ encode DataType.TEXT (tk.toUtf8 str)) := by
  have hset : (processData tk T w).setClipboardTime = T := by
    unfold processData
    rw [htype]
    show wrap64 (T : Int) = T
    unfold wrap64
    omega
  have hw : wrap64 ((now : Int) - (processData tk T w).setClipboardTime) = now - T := by
    rw [hset]
    unfold wrap64
    omega
  refine ⟨hset, ?_⟩
  · by_cases h : now - T < 1000
    · rw [if_pos h, writeText_suppressed tk now str _ (by rw [hw]; exact h), processData_socket]
    · rw [if_neg h, writeText_written tk now str _ (by rw [hw]; exact h), processData_socket]

/-- Witness of C6: a TEXT dispatch at T = 5000, then writeText at T + 500 (no
send) and at T + 1500 (one TEXT frame). -/
theorem C6_echo_suppression_witness :
    (writeText demoToolkit 5500 [120]
        (processData demoToolkit 5000
          { Worker.fresh QByteArray QByteArray with type := 1, recvBuf := [120] })).socket_.written
        = []
      ∧ (writeText demoToolkit 6500 [120]
        (processData demoToolkit 5000
          { Worker.fresh QByteArray QByteArray with type := 1, recvBuf := [120] })).socket_.written
        = [1, 0, 0, 0, 1, 120] :=
  ⟨(C6_echo_suppression demoToolkit 5000 5500 [120]
      { Worker.fresh QByteArray QByteArray with type := 1, recvBuf := [120] }
      rfl (by decide) (by decide)).2,
    (C6_echo_suppression demoToolkit 5000 6500 [120]
      { Worker.fresh QByteArray QByteArray with type := 1, recvBuf := [120] }
      rfl (by decide) (by decide)).2⟩

/-- C7, what the code does: when the payload of an IMAGE frame fails to load
as a PNG image, processData still calls setImage, with the null image, and
still sets setClipboardTime to the clock reading. -/
theorem C7_image_decode_failure (tk : Toolkit QString QImg) (now : Nat)
    (w : Worker QString QImg) (htype : w.type = DataType.IMAGE.code)
    (hfail : tk.loadFromData w.recvBuf = none) :
    (processData tk now w).clipboard = w.clipboard ++ [SinkCall.setImage none]
      ∧ (processData tk now w).setClipboardTime = wrap64 now := by
  unfold processData
  rw [htype]
  show w.clipboard ++ [SinkCall.setImage (tk.loadFromData w.recvBuf)] = _ ∧ wrap64 now = _
  rw [hfail]
  exact ⟨rfl, rfl⟩

/-- Witness of C7: the IMAGE frame whose payload is the one byte 0, which is
no PNG image, read by a fresh worker at clock time 5000. -/
theorem C7_image_decode_failure_witness :
    (processData demoToolkit 5000
        { Worker.fresh QByteArray QByteArray with type := 2, recvBuf := [0] }).clipboard
        = [SinkCall.setImage none]
      ∧ (processData demoToolkit 5000
        { Worker.fresh QByteArray QByteArray with type := 2, recvBuf := [0] }).setClipboardTime
        = 5000
      ∧ (feed demoToolkit (fun _ => 5000) [2, 0, 0, 0, 1, 0]
          (Worker.fresh QByteArray QByteArray)).clipboard = [SinkCall.setImage none]
      ∧ (feed demoToolkit (fun _ => 5000) [2, 0, 0, 0, 1, 0]
          (Worker.fresh QByteArray QByteArray)).setClipboardTime = 5000 :=
  ⟨(C7_image_decode_failure demoToolkit 5000
      { Worker.fresh QByteArray QByteArray with type := 2, recvBuf := [0] } rfl rfl).1,
    (C7_image_decode_failure demoToolkit 5000
      { Worker.fresh QByteArray QByteArray with type := 2, recvBuf := [0] } rfl rfl).2,
    by decide, by decide⟩

/-- C8. For every finite sequence of frames with payloads of 1 to 2^31 - 1
bytes (of type TEXT or IMAGE; the proof also covers QUERY), and every chunking
of the concatenation of their encodings, feeding the chunks in order to a fresh
worker makes exactly as many calls of processData as there are frames, the i-th
with the type and payload of the i-th frame, and leaves the worker in stage
HEADER with leftToRecv = 5 and an empty recvBuf. -/
theorem C8_frames_any_chunking (tk : Toolkit QString QImg) (clock : Nat → Nat)
    (frames : List (DataType × QByteArray)) (chunks : List QByteArray)
    (hlen : ∀ f ∈ frames, 1 ≤ f.2.length ∧ f.2.length ≤ 2 ^ 31 - 1)
    (hchunks : chunks.flatten = (frames.map (fun f => encode f.1 f.2)).flatten) :
    (feedAll tk clock chunks (Worker.fresh QString QImg)).dispatched
        = frames.map (fun f => (f.1.code, f.2))
      ∧ (feedAll tk clock chunks (Worker.fresh QString QImg)).dispatched.length = frames.length
      ∧ (feedAll tk clock chunks (Worker.fresh QString QImg)).stage = ReadStage.HEADER
      ∧ (feedAll tk clock chunks (Worker.fresh QString QImg)).leftToRecv = 5
      ∧ (feedAll tk clock chunks (Worker.fresh QString QImg)).recvBuf = [] := by
  have h := consume_frames tk clock frames (Worker.fresh QString QImg) atHeader_fresh hlen
  rw [← hchunks, ← feedAll_eq_consume tk clock chunks _ settled_fresh] at h
  obtain ⟨⟨h1, h2, h3, _⟩, h4⟩ := h
  have h5 : (feedAll tk clock chunks (Worker.fresh QString QImg)).dispatched
      = frames.map (fun f => (f.1.code, f.2)) := by rw [h4]; rfl
  exact ⟨h5, by rw [h5, List.length_map], h1, h2, h3⟩

/-- Witness of C8: a TEXT frame and an IMAGE frame, with chunk boundaries
inside a header, across the two frames and inside a payload. -/
theorem C8_frames_any_chunking_witness :
    (feedAll demoToolkit (fun _ => 0) [[1, 0, 0], [0, 1, 120, 2, 0, 0, 0], [2, 137], [80]]
        (Worker.fresh QByteArray QByteArray)).dispatched
        = [(DataType.TEXT, [120]), (DataType.IMAGE, [137, 80])].map (fun f => (f.1.code, f.2))
      ∧ (feedAll demoToolkit (fun _ => 0) [[1, 0, 0], [0, 1, 120, 2, 0, 0, 0], [2, 137], [80]]
        (Worker.fresh QByteArray QByteArray)).dispatched.length = 2
      ∧ (feedAll demoToolkit (fun _ => 0) [[1, 0, 0], [0, 1, 120, 2, 0, 0, 0], [2, 137], [80]]
        (Worker.fresh QByteArray QByteArray)).stage = ReadStage.HEADER
      ∧ (feedAll demoToolkit (fun _ => 0) [[1, 0, 0], [0, 1, 120, 2, 0, 0, 0], [2, 137], [80]]
        (Worker.fresh QByteArray QByteArray)).leftToRecv = 5
      ∧ (feedAll demoToolkit (fun _ => 0) [[1, 0, 0], [0, 1, 120, 2, 0, 0, 0], [2, 137], [80]]
        (Worker.fresh QByteArray QByteArray)).recvBuf = [] :=
  C8_frames_any_chunking demoToolkit (fun _ => 0)
    [(DataType.TEXT, [120]), (DataType.IMAGE, [137, 80])]
    [[1, 0, 0], [0, 1, 120, 2, 0, 0, 0], [2, 137], [80]] (by decide) (by decide)

/-- C9. Registry removal is idempotent and local. Let h be any of the three
removal handlers for the socket id: the disconnected handler and the
errorOccurred handler installed by handleConnection, and the disconnected
handler installed by connectToServer. For every state of the listener, after h
the socket id is absent from workerMap, the entries left are exactly the
entries with another key, the lookup of every other key is unchanged, and when
id was absent workerMap is unchanged; and a second notification g for id, again
any of the three handlers, leaves workerMap as h left it. The handlers are
total functions: no error is raised. -/
theorem C9_registry_removal_idempotent (l : ClipBoardListener QString QImg) (id : Nat)
    (h : ClipBoardListener QString QImg → ClipBoardListener QString QImg)
    (hh : h ∈ [socketDisconnected id, socketErrorOccurred id, clientDisconnected id]) :
    (h l).workerMap.find id = none
      ∧ (∀ e, e ∈ (h l).workerMap ↔ (e ∈ l.workerMap ∧ e.1 ≠ id))
      ∧ (∀ k, k ≠ id → (h l).workerMap.find k = l.workerMap.find k)
      ∧ (l.workerMap.find id = none → (h l).workerMap = l.workerMap)
      ∧ (∀ g ∈ [socketDisconnected id, socketErrorOccurred id, clientDisconnected id],
          (g (h l)).workerMap = (h l).workerMap) := by
  have key : ∀ f ∈ [socketDisconnected id, socketErrorOccurred id, clientDisconnected id],
      ∀ l0 : ClipBoardListener QString QImg, (f l0).workerMap = l0.workerMap.erase id := by
    intro f hf l0
    simp only [List.mem_cons, List.mem_singleton, List.not_mem_nil, or_false] at hf
    rcases hf with rfl | rfl | rfl <;> rfl
  rw [key h hh l]
  refine ⟨find_erase_self _ id, ?_, ?_, ?_, ?_⟩
  · intro e
    show e ∈ List.filter (fun e => e.1 != id) l.workerMap ↔ _
    simp [List.mem_filter]
  · intro k hk
    exact find_erase_ne l.workerMap id k hk
  · intro h0
    exact erase_of_find_none l.workerMap id h0
  · intro g hg
    rw [key g hg (h l), key h hh l]
    exact erase_erase _ id

/-- Witness of C9: a registry with the sockets 3, 5 and 8, where 5 reports an
error and then disconnects, and where the absent socket 4 disconnects in the
connecting role. -/
theorem C9_registry_removal_idempotent_witness :
    (socketDisconnected 5 (socketErrorOccurred 5
        ({ workerMap := [(3, Worker.fresh QByteArray QByteArray),
            (5, Worker.fresh QByteArray QByteArray),
            (8, Worker.fresh QByteArray QByteArray)], deleted := [] } :
          ClipBoardListener QByteArray QByteArray))).workerMap
        = [(3, Worker.fresh QByteArray QByteArray), (8, Worker.fresh QByteArray QByteArray)]
      ∧ (socketErrorOccurred 5
        ({ workerMap := [(3, Worker.fresh QByteArray QByteArray),
            (5, Worker.fresh QByteArray QByteArray),
            (8, Worker.fresh QByteArray QByteArray)], deleted := [] } :
          ClipBoardListener QByteArray QByteArray)).workerMap.find 8
        = some (Worker.fresh QByteArray QByteArray)
      ∧ (socketErrorOccurred 5
        ({ workerMap := [(3, Worker.fresh QByteArray QByteArray),
            (5, Worker.fresh QByteArray QByteArray),
            (8, Worker.fresh QByteArray QByteArray)], deleted := [] } :
          ClipBoardListener QByteArray QByteArray)).workerMap.find 5 = none
      ∧ (clientDisconnected 4
        ({ workerMap := [(3, Worker.fresh QByteArray QByteArray),
            (5, Worker.fresh QByteArray QByteArray),
            (8, Worker.fresh QByteArray QByteArray)], deleted := [] } :
          ClipBoardListener QByteArray QByteArray)).workerMap
        = [(3, Worker.fresh QByteArray QByteArray), (5, Worker.fresh QByteArray QByteArray),
            (8, Worker.fresh QByteArray QByteArray)] :=
  ⟨((C9_registry_removal_idempotent
      ({ workerMap := [(3, Worker.fresh QByteArray QByteArray),
            (5, Worker.fresh QByteArray QByteArray),
            (8, Worker.fresh QByteArray QByteArray)], deleted := [] } :
          ClipBoardListener QByteArray QByteArray) 5 (socketErrorOccurred 5)
      (List.mem_cons_of_mem _ (List.mem_cons_self _ _))).2.2.2.2 (socketDisconnected 5)
      (List.mem_cons_self _ _)).trans rfl,
    ((C9_registry_removal_idempotent
      ({ workerMap := [(3, Worker.fresh QByteArray QByteArray),
            (5, Worker.fresh QByteArray QByteArray),
            (8, Worker.fresh QByteArray QByteArray)], deleted := [] } :
          ClipBoardListener QByteArray QByteArray) 5 (socketErrorOccurred 5)
      (List.mem_cons_of_mem _ (List.mem_cons_self _ _))).2.2.1 8 (by decide)).trans rfl,
    (C9_registry_removal_idempotent
      ({ workerMap := [(3, Worker.fresh QByteArray QByteArray),
            (5, Worker.fresh QByteArray QByteArray),
            (8, Worker.fresh QByteArray QByteArray)], deleted := [] } :
          ClipBoardListener QByteArray QByteArray) 5 (socketErrorOccurred 5)
      (List.mem_cons_of_mem _ (List.mem_cons_self _ _))).1,
    (C9_registry_removal_idempotent
      ({ workerMap := [(3, Worker.fresh QByteArray QByteArray),
            (5, Worker.fresh QByteArray QByteArray),
            (8, Worker.fresh QByteArray QByteArray)], deleted := [] } :
          ClipBoardListener QByteArray QByteArray) 4 (clientDisconnected 4)
      (List.mem_cons_of_mem _ (List.mem_cons_of_mem _ (List.mem_cons_self _ _)))).2.2.2.1 rfl⟩

/-- C10. Broadcast fan-out: for a clipboard-changed event with a non-empty
text and no image, onClipboardChange on an empty workerMap changes nothing;
on a workerMap of N workers it keeps the N entries and their keys, and the
i-th worker afterwards is the i-th worker before with writeText applied to it
once, at the clock reading of the i-th call. The result for one worker is
thus a function of that worker alone: two registries that agree on the i-th
entry give the same i-th entry afterwards, whatever the state of, and
whatever was written by, the other workers. -/
theorem C10_broadcast_fan_out (tk : Toolkit QString QImg) (clock : Nat → Nat) (txt : QString)
    (l : ClipBoardListener QString QImg) (htxt : tk.isEmpty txt = false) :
    onClipboardChange tk clock none txt { workerMap := [], deleted := l.deleted }
        = { workerMap := [], deleted := l.deleted }
      ∧ (onClipboardChange tk clock none txt l).workerMap.length = l.workerMap.length
      ∧ (onClipboardChange tk clock none txt l).deleted = l.deleted
      ∧ (∀ i : Nat, (onClipboardChange tk clock none txt l).workerMap[i]?
          = (l.workerMap[i]?).map (fun e => (e.1, writeText tk (clock i) txt e.2)))
      ∧ (∀ (l2 : ClipBoardListener QString QImg) (i : Nat),
          l2.workerMap[i]? = l.workerMap[i]? →
          (onClipboardChange tk clock none txt l2).workerMap[i]?
            = (onClipboardChange tk clock none txt l).workerMap[i]?) := by
  have e : ∀ l0 : ClipBoardListener QString QImg,
      (onClipboardChange tk clock none txt l0).workerMap
        = forEachWorker (fun k w => writeText tk (clock k) txt w) 0 l0.workerMap := by
    intro l0
    simp [onClipboardChange, htxt]
  refine ⟨?_, ?_, rfl, ?_, ?_⟩
  · simp [onClipboardChange, htxt, forEachWorker]
  · rw [e, forEachWorker_length]
  · intro i
    rw [e, forEachWorker_getElem?]
    simp
  · intro l2 i h
    rw [e, e, forEachWorker_getElem?, forEachWorker_getElem?, h]

/-- Witness of C10: two registered workers, the first of which applied remote
content at clock time 4800 and is therefore suppressed at 5000, which does not
change what the second one sends. -/
theorem C10_broadcast_fan_out_witness :
    (onClipboardChange demoToolkit (fun _ => 5000) none [120]
        { workerMap := [(3, { Worker.fresh QByteArray QByteArray with setClipboardTime := 4800 }),
            (5, Worker.fresh QByteArray QByteArray)],
          deleted := [] }).workerMap.length = 2
      ∧ ((onClipboardChange demoToolkit (fun _ => 5000) none [120]
        { workerMap := [(3, { Worker.fresh QByteArray QByteArray with setClipboardTime := 4800 }),
            (5, Worker.fresh QByteArray QByteArray)],
          deleted := [] }).workerMap.map (fun e => (e.1, e.2.socket_.written)))
          = [(3, []), (5, [1, 0, 0, 0, 1, 120])] :=
  ⟨(C10_broadcast_fan_out demoToolkit (fun _ => 5000) [120]
      { workerMap := [(3, { Worker.fresh QByteArray QByteArray with setClipboardTime := 4800 }),
          (5, Worker.fresh QByteArray QByteArray)],
        deleted := [] } rfl).2.1,
    by decide⟩

/-- C11, what the code does: a header whose first length byte is 128 or more
is read as a negative int. Fed to a fresh worker it leaves leftToRecv negative:
the branch of readData for a length that is not positive calls processData on
the header bytes and, unlike the BODY branch, does not set leftToRecv back to
headerLen. The worker stays in stage HEADER and reads no byte of whatever
arrives later. -/
theorem C11_negative_leftToRecv (tk : Toolkit QString QImg) (clock : Nat → Nat)
    (t b1 b2 b3 b4 : Nat) (hb : 128 ≤ b1 % 256) :
    (feed tk clock [t, b1, b2, b3, b4] (Worker.fresh QString QImg)).leftToRecv < 0
      ∧ (feed tk clock [t, b1, b2, b3, b4] (Worker.fresh QString QImg)).leftToRecv
          = headerLength [t, b1, b2, b3, b4]
      ∧ (feed tk clock [t, b1, b2, b3, b4] (Worker.fresh QString QImg)).stage
          = ReadStage.HEADER
      ∧ (feed tk clock [t, b1, b2, b3, b4] (Worker.fresh QString QImg)).dispatched
          = [(t, [t, b1, b2, b3, b4])]
      ∧ ∀ later : QByteArray,
          feed tk clock later (feed tk clock [t, b1, b2, b3, b4] (Worker.fresh QString QImg))
            = (feed tk clock [t, b1, b2, b3, b4] (Worker.fresh QString QImg)).withInput later := by
  have hneg : headerLength [t, b1, b2, b3, b4] < 0 :=
    (headerLength_neg_iff [t, b1, b2, b3, b4]).mpr (by simpa using hb)
  obtain ⟨h1, h2, h3, h4⟩ := feed_header_nonpos tk clock t b1 b2 b3 b4
    (Worker.fresh QString QImg) atHeader_fresh (by omega)
  exact ⟨by rw [h1]; exact hneg, h1, h2, h3, h4⟩

/-- Witness of C11: the header 1, 128, 0, 0, 0 leaves a fresh worker with
leftToRecv = -2147483648. -/
theorem C11_negative_leftToRecv_witness :
    (feed demoToolkit (fun _ => 0) [1, 128, 0, 0, 0]
        (Worker.fresh QByteArray QByteArray)).leftToRecv < 0
      ∧ (feed demoToolkit (fun _ => 0) [1, 128, 0, 0, 0]
        (Worker.fresh QByteArray QByteArray)).leftToRecv = -2147483648
      ∧ (feedAll demoToolkit (fun _ => 0) [[1, 128, 0, 0, 0]]
        (Worker.fresh QByteArray QByteArray)).leftToRecv = -2147483648
      ∧ ¬ (0 ≤ (feedAll demoToolkit (fun _ => 0) [[1, 128, 0, 0, 0]]
        (Worker.fresh QByteArray QByteArray)).leftToRecv) :=
  ⟨(C11_negative_leftToRecv demoToolkit (fun _ => 0) 1 128 0 0 0 (by decide)).1,
    by decide, by decide, by decide⟩

/-- C12. Inert frame types: for a worker at a header boundary and a frame whose
type byte is 0 (QUERY) or any value other than 0, 1, 2, with a payload of 1 to
2^31 - 1 bytes, fed in any chunking, completing the frame makes one call of
processData and no call on the clipboard, leaves setClipboardTime unchanged,
and leaves the worker at a header boundary (stage HEADER, leftToRecv = 5,
recvBuf empty); a TEXT frame fed right afterwards, in any chunking, is
dispatched with its own payload and sets the clipboard text decoded from it. -/
theorem C12_inert_frame_types (tk : Toolkit QString QImg) (clock : Nat → Nat)
    (w : Worker QString QImg) (t : Nat) (payload p : QByteArray)
    (chunks1 chunks2 : List QByteArray) (hw : AtHeader w)
    (ht : t < 256) (ht1 : t ≠ 1) (ht2 : t ≠ 2)
    (hL : 1 ≤ payload.length ∧ payload.length ≤ 2 ^ 31 - 1)
    (hp : 1 ≤ p.length ∧ p.length ≤ 2 ^ 31 - 1)
    (hc1 : chunks1.flatten = headerBytes t payload.length ++ payload)
    (hc2 : chunks2.flatten = encode DataType.TEXT p) :
    (feedAll tk clock chunks1 w).clipboard = w.clipboard
      ∧ (feedAll tk clock chunks1 w).setClipboardTime = w.setClipboardTime
      ∧ (feedAll tk clock chunks1 w).dispatched = w.dispatched ++ [(t, payload)]
      ∧ (feedAll tk clock chunks1 w).stage = ReadStage.HEADER
      ∧ (feedAll tk clock chunks1 w).leftToRecv = 5
      ∧ (feedAll tk clock chunks1 w).recvBuf = []
      ∧ (feedAll tk clock chunks2 (feedAll tk clock chunks1 w)).dispatched
          = w.dispatched ++ [(t, payload), (DataType.TEXT.code, p)]
      ∧ (feedAll tk clock chunks2 (feedAll tk clock chunks1 w)).clipboard
          = w.clipboard ++ [SinkCall.setText (tk.fromUtf8 p)] := by
  have hw1 : wrap32 (payload.length : Int) = payload.length := by
    apply wrap32_of_range <;> omega
  have hw2 : wrap32 (p.length : Int) = p.length := by
    apply wrap32_of_range <;> omega
  have e1 : feedAll tk clock chunks1 w = afterFrame tk clock t payload w :=
    feedAll_frame tk clock t payload.length payload chunks1 w hw ht
      (by rw [hw1]; omega) (by rw [hw1]) hc1
  have ha := afterFrame_atHeader tk clock t payload w hw
  have e2 : feedAll tk clock chunks2 (afterFrame tk clock t payload w)
      = afterFrame tk clock 1 p (afterFrame tk clock t payload w) :=
    feedAll_frame tk clock 1 (wrap32 p.length) p chunks2 _ ha (by decide)
      (by rw [hw2, hw2]; omega) (by rw [hw2, hw2]) hc2
  obtain ⟨i1, i2⟩ := afterFrame_inert tk clock t payload w ht1 ht2
  rw [e1, e2]
  refine ⟨i1, i2, afterFrame_dispatched tk clock t payload w, ha.1, ha.2.1, ha.2.2.1, ?_, ?_⟩
  · rw [afterFrame_dispatched, afterFrame_dispatched]
    simp [DataType.code]
  · rw [(afterFrame_text tk clock p _).1, i1]

/-- Witness of C12: a frame of type 99 with the payload 7, 8 and then the TEXT
frame of the one byte 120, both split across chunks. -/
theorem C12_inert_frame_types_witness :
    (feedAll demoToolkit (fun _ => 5000) [[99, 0, 0], [0, 2, 7], [8]]
        (Worker.fresh QByteArray QByteArray)).clipboard = []
      ∧ (feedAll demoToolkit (fun _ => 5000) [[99, 0, 0], [0, 2, 7], [8]]
        (Worker.fresh QByteArray QByteArray)).setClipboardTime = 0
      ∧ (feedAll demoToolkit (fun _ => 5000) [[1, 0, 0, 0], [1, 120]]
          (feedAll demoToolkit (fun _ => 5000) [[99, 0, 0], [0, 2, 7], [8]]
            (Worker.fresh QByteArray QByteArray))).clipboard
          = [SinkCall.setText [120]] :=
  ⟨(C12_inert_frame_types demoToolkit (fun _ => 5000) (Worker.fresh QByteArray QByteArray) 99
      [7, 8] [120] [[99, 0, 0], [0, 2, 7], [8]] [[1, 0, 0, 0], [1, 120]] atHeader_fresh
      (by decide) (by decide) (by decide) (by decide) (by decide) (by decide) (by decide)).1,
    (C12_inert_frame_types demoToolkit (fun _ => 5000) (Worker.fresh QByteArray QByteArray) 99
      [7, 8] [120] [[99, 0, 0], [0, 2, 7], [8]] [[1, 0, 0, 0], [1, 120]] atHeader_fresh
      (by decide) (by decide) (by decide) (by decide) (by decide) (by decide) (by decide)).2.1,
    (C12_inert_frame_types demoToolkit (fun _ => 5000) (Worker.fresh QByteArray QByteArray) 99
      [7, 8] [120] [[99, 0, 0], [0, 2, 7], [8]] [[1, 0, 0, 0], [1, 120]] atHeader_fresh
      (by decide) (by decide) (by decide) (by decide) (by decide) (by decide)
      (by decide)).2.2.2.2.2.2.2⟩

/-- C13. No outbound frame with an empty payload: for every clipboard content
(image null or not, text empty or not) and every registered worker, the bytes
that onClipboardChange appends to the socket of the worker are the encodings of
a list of frames (none, one or two), each of type TEXT or IMAGE, each with a
payload of n bytes, n at least 1, and a header whose four length bytes are the
big-endian digits of n. The Qt facts used are hypotheses on the content: a
non-empty QString has a non-empty UTF-8 encoding, an image saved as PNG gives
at least one byte, and both byte counts are below 2^32. -/
theorem C13_no_empty_outbound_payload (tk : Toolkit QString QImg) (clock : Nat → Nat)
    (img : Option QImg) (txt : QString) (l : ClipBoardListener QString QImg) (j : Nat)
    (e : Nat × Worker QString QImg)
    (htxt : tk.isEmpty txt = false → tk.toUtf8 txt ≠ [])
    (htxtlen : (tk.toUtf8 txt).length < 2 ^ 32)
    (himg : ∀ i png, img = some i → tk.save i = some png → png ≠ [] ∧ png.length < 2 ^ 32)
    (hj : l.workerMap[j]? = some e) :
    ∃ (w : Worker QString QImg) (frames : List (DataType × QByteArray)),
      (onClipboardChange tk clock img txt l).workerMap[j]? = some (e.1, w)
        ∧ w.socket_.written
            = e.2.socket_.written ++ (frames.map (fun f => encode f.1 f.2)).flatten
        ∧ ∀ f ∈ frames, (f.1 = DataType.TEXT ∨ f.1 = DataType.IMAGE)
            ∧ 1 ≤ f.2.length ∧ f.2.length < 2 ^ 32
            ∧ encode f.1 f.2
                = [f.1.code, f.2.length / 2 ^ 24, f.2.length / 2 ^ 16 % 256,
                    f.2.length / 2 ^ 8 % 256, f.2.length % 256] ++ f.2 := by
  have hres := onClipboardChange_getElem? tk clock img txt l j
  rw [hj, Option.map_some'] at hres
  -- the image loop
  have h1 : ∃ frames1 : List (DataType × QByteArray),
      ((if img.isSome then writeImage tk (clock j) img else id) e.2).socket_.written
          = e.2.socket_.written ++ (frames1.map (fun f => encode f.1 f.2)).flatten
        ∧ ∀ f ∈ frames1, (f.1 = DataType.TEXT ∨ f.1 = DataType.IMAGE)
            ∧ 1 ≤ f.2.length ∧ f.2.length < 2 ^ 32 := by
    by_cases hi : img.isSome = true
    · rw [if_pos hi]
      rcases writeImage_cases tk (clock j) img e.2 with h | ⟨i, png, h1, h2, h3⟩
      · exact ⟨[], by rw [h]; simp, by intro f hf; cases hf⟩
      · obtain ⟨hne, hlt⟩ := himg i png h1 h2
        refine ⟨[(DataType.IMAGE, png)], by rw [h3]; simp, ?_⟩
        intro f hf
        simp only [List.mem_singleton] at hf
        subst hf
        exact ⟨Or.inr rfl, List.length_pos.mpr hne, hlt⟩
    · rw [if_neg hi]
      exact ⟨[], by simp, by intro f hf; cases hf⟩
  obtain ⟨frames1, hw1, hg1⟩ := h1
  -- the text loop
  have h2 : ∃ frames2 : List (DataType × QByteArray),
      ((if tk.isEmpty txt then id
          else writeText tk (clock ((if img.isSome then l.workerMap.length else 0) + j)) txt)
        ((if img.isSome then writeImage tk (clock j) img else id) e.2)).socket_.written
          = ((if img.isSome then writeImage tk (clock j) img else id) e.2).socket_.written
              ++ (frames2.map (fun f => encode f.1 f.2)).flatten
        ∧ ∀ f ∈ frames2, (f.1 = DataType.TEXT ∨ f.1 = DataType.IMAGE)
            ∧ 1 ≤ f.2.length ∧ f.2.length < 2 ^ 32 := by
    by_cases ht : tk.isEmpty txt = true
    · rw [if_pos ht]
      exact ⟨[], by simp, by intro f hf; cases hf⟩
    · rw [if_neg ht]
      have hne : tk.toUtf8 txt ≠ [] := htxt (by simpa using ht)
      rcases writeText_cases tk (clock ((if img.isSome then l.workerMap.length else 0) + j)) txt
        ((if img.isSome then writeImage tk (clock j) img else id) e.2) with h | h
      · exact ⟨[], by rw [h]; simp, by intro f hf; cases hf⟩
      · refine ⟨[(DataType.TEXT, tk.toUtf8 txt)], by rw [h]; simp, ?_⟩
        intro f hf
        simp only [List.mem_singleton] at hf
        subst hf
        exact ⟨Or.inl rfl, List.length_pos.mpr hne, htxtlen⟩
  obtain ⟨frames2, hw2, hg2⟩ := h2
  refine ⟨_, frames1 ++ frames2, hres, ?_, ?_⟩
  · rw [hw2, hw1]; simp
  · intro f hf
    rcases List.mem_append.mp hf with hf | hf
    · obtain ⟨a, b, c⟩ := hg1 f hf
      exact ⟨a, b, c, encode_layout f.1 f.2 c⟩
    · obtain ⟨a, b, c⟩ := hg2 f hf
      exact ⟨a, b, c, encode_layout f.1 f.2 c⟩

/-- Witness of C13: one registered worker, a clipboard with the image of the
bytes 137, 80 and the text of the byte 120, at clock time 5000. -/
theorem C13_no_empty_outbound_payload_witness :
    (∃ (w : Worker QByteArray QByteArray) (frames : List (DataType × QByteArray)),
      (onClipboardChange demoToolkit (fun _ => 5000) (some [137, 80]) [120]
          { workerMap := [(3, Worker.fresh QByteArray QByteArray)],
            deleted := [] }).workerMap[0]?
          = some (3, w)
        ∧ w.socket_.written
            = (Worker.fresh QByteArray QByteArray).socket_.written
                ++ (frames.map (fun f => encode f.1 f.2)).flatten
        ∧ ∀ f ∈ frames, (f.1 = DataType.TEXT ∨ f.1 = DataType.IMAGE)
            ∧ 1 ≤ f.2.length ∧ f.2.length < 2 ^ 32
            ∧ encode f.1 f.2
                = [f.1.code, f.2.length / 2 ^ 24, f.2.length / 2 ^ 16 % 256,
                    f.2.length / 2 ^ 8 % 256, f.2.length % 256] ++ f.2)
      ∧ ((onClipboardChange demoToolkit (fun _ => 5000) (some [137, 80]) [120]
          { workerMap := [(3, Worker.fresh QByteArray QByteArray)],
            deleted := [] }).workerMap.map (fun e => e.2.socket_.written))
          = [[2, 0, 0, 0, 2, 137, 80, 1, 0, 0, 0, 1, 120]] :=
  ⟨C13_no_empty_outbound_payload demoToolkit (fun _ => 5000) (some [137, 80]) [120]
      { workerMap := [(3, Worker.fresh QByteArray QByteArray)], deleted := [] } 0
      (3, Worker.fresh QByteArray QByteArray)
      (by intro _; decide) (by decide)
      (by
        intro i png hi hs
        have e1 : i = [137, 80] := (Option.some.inj hi).symm
        have e2 : png = i := (Option.some.inj hs).symm
        rw [e2, e1]
        exact ⟨by decide, by decide⟩)
      rfl,
    by decide⟩

/-- C14. Chunk-independence of the decoder: for every state s reached from a
fresh worker by feeding chunks, and all byte strings a and b, the arrival of a
followed by readData and then the arrival of b followed by readData gives the
same worker (stage, leftToRecv, recvBuf, type, unread socket bytes, and the
same calls of processData and of the clipboard) as the arrival of a ++ b
followed by one readData; and readData run with nothing new to read changes
nothing. -/
theorem C14_chunk_independence (tk : Toolkit QString QImg) (clock : Nat → Nat)
    (chunks : List QByteArray) (a b : QByteArray) :
    feed tk clock b (feed tk clock a (feedAll tk clock chunks (Worker.fresh QString QImg)))
        = feed tk clock (a ++ b) (feedAll tk clock chunks (Worker.fresh QString QImg))
      ∧ feed tk clock [] (feedAll tk clock chunks (Worker.fresh QString QImg))
        = feedAll tk clock chunks (Worker.fresh QString QImg)
      ∧ readData tk clock (feedAll tk clock chunks (Worker.fresh QString QImg))
        = feedAll tk clock chunks (Worker.fresh QString QImg) := by
  have hs := settled_feedAll tk clock chunks
  refine ⟨feed_feed tk clock a b _ hs, ?_, readData_settled tk clock _ hs⟩
  rw [feed_eq_consume tk clock [] _ hs, consume_nil]

/-- C15. Echo suppression is per session and does not block relaying. In a
registry where the worker A at position i dispatched a TEXT frame at time T
and every other worker has setClipboardTime = 0, a clipboard-changed event
with a non-empty text, all of whose clock readings now satisfy
T <= now < T + 1000 and now >= 1000 (64 bit values), leaves A as it is (nothing
is written on its socket) and appends to the socket of every other worker
exactly one complete TEXT frame, preceded by the IMAGE frame when the clipboard
also holds an image that is saved as PNG. A run of the readyRead handler for
the socket of A, which is where A dispatches, leaves every other worker
unchanged, its setClipboardTime included. -/
theorem C15_suppression_per_session (tk : Toolkit QString QImg) (clock : Nat → Nat)
    (img : Option QImg) (txt : QString) (l : ClipBoardListener QString QImg) (i a T : Nat)
    (A0 : Worker QString QImg)
    (htxt : tk.isEmpty txt = false)
    (hA0 : A0.type = DataType.TEXT.code)
    (hA : l.workerMap[i]? = some (a, processData tk T A0))
    (hB : ∀ j e, j ≠ i → l.workerMap[j]? = some e → e.2.setClipboardTime = 0)
    (hclock : ∀ k, T ≤ clock k ∧ clock k < T + 1000 ∧ 1000 ≤ clock k ∧ clock k < 2 ^ 64) :
    (onClipboardChange tk clock img txt l).workerMap[i]? = some (a, processData tk T A0)
      ∧ (∀ j e, j ≠ i → l.workerMap[j]? = some e →
          ∃ wB, (onClipboardChange tk clock img txt l).workerMap[j]? = some (e.1, wB)
            ∧ wB.socket_.written
                = e.2.socket_.written
                  ++ ((img.bind tk.save).map (encode DataType.IMAGE)).getD []
                  ++ encode DataType.TEXT (tk.toUtf8 txt))
      ∧ (∀ (clk : Nat → Nat) (chunk : QByteArray) (k : Nat), k ≠ a →
          (socketReadyRead tk clk a chunk l).workerMap.find k = l.workerMap.find k) := by
  have hT : T < 2 ^ 64 := by
    obtain ⟨h1, _, _, h4⟩ := hclock 0
    omega
  have hset : (processData tk T A0).setClipboardTime = T := by
    rw [(processData_text tk T A0 hA0).2]
    unfold wrap64
    omega
  have hsupp : ∀ k, wrap64 ((clock k : Int) - (processData tk T A0).setClipboardTime) < 1000 := by
    intro k
    obtain ⟨h1, h2, _, h4⟩ := hclock k
    rw [hset]
    unfold wrap64
    omega
  have hfree : ∀ k (w : Worker QString QImg), w.setClipboardTime = 0 →
      ¬ wrap64 ((clock k : Int) - w.setClipboardTime) < 1000 := by
    intro k w hw
    obtain ⟨_, _, h3, h4⟩ := hclock k
    rw [hw]
    unfold wrap64
    omega
  have hne : tk.isEmpty txt ≠ true := by rw [htxt]; decide
  refine ⟨?_, ?_, ?_⟩
  · rw [onClipboardChange_getElem?, hA, Option.map_some', if_neg hne]
    have e1 : (if img.isSome then writeImage tk (clock i) img else id) (processData tk T A0)
        = processData tk T A0 := by
      by_cases hi : img.isSome = true
      · rw [if_pos hi, writeImage_suppressed tk (clock i) img _ (hsupp i)]
      · rw [if_neg hi]; rfl
    rw [e1, writeText_suppressed tk _ txt _ (hsupp _)]
  · intro j e hj he
    have h0 := hB j e hj he
    refine ⟨_, by rw [onClipboardChange_getElem?, he, Option.map_some'], ?_⟩
    rw [if_neg hne]
    have e1 : ((if img.isSome then writeImage tk (clock j) img else id) e.2).socket_.written
        = e.2.socket_.written ++ ((img.bind tk.save).map (encode DataType.IMAGE)).getD [] := by
      by_cases hi : img.isSome = true
      · rw [if_pos hi, writeImage_written_general tk (clock j) img e.2 (hfree j e.2 h0)]
      · rw [if_neg hi]
        have hn : img = none := by
          cases img with
          | none => rfl
          | some x => exact absurd rfl hi
        rw [hn]
        simp
    have e2 : ((if img.isSome then writeImage tk (clock j) img else id) e.2).setClipboardTime
        = 0 := by
      by_cases hi : img.isSome = true
      · rw [if_pos hi, writeImage_setClipboardTime, h0]
      · rw [if_neg hi]; exact h0
    rw [writeText_written tk _ txt _ (hfree _ _ e2), e1]
  · intro clk chunk k hk
    exact find_socketReadyRead_ne tk clk a k chunk l hk

/-- Witness of C15: worker A on socket 3 dispatched a TEXT frame at T = 5000,
worker B on socket 5 never did, and the clipboard text of the byte 120 is
broadcast at clock time 5500. -/
theorem C15_suppression_per_session_witness :
    (onClipboardChange demoToolkit (fun _ => 5500) none [120]
        { workerMap :=
            [(3, processData demoToolkit 5000
                  { Worker.fresh QByteArray QByteArray with type := 1, recvBuf := [120] }),
             (5, Worker.fresh QByteArray QByteArray)],
          deleted := [] }).workerMap[0]?
        = some (3, processData demoToolkit 5000
            { Worker.fresh QByteArray QByteArray with type := 1, recvBuf := [120] })
      ∧ ((onClipboardChange demoToolkit (fun _ => 5500) none [120]
        { workerMap :=
            [(3, processData demoToolkit 5000
                  { Worker.fresh QByteArray QByteArray with type := 1, recvBuf := [120] }),
             (5, Worker.fresh QByteArray QByteArray)],
          deleted := [] }).workerMap.map (fun e => (e.1, e.2.socket_.written)))
        = [(3, []), (5, [1, 0, 0, 0, 1, 120])] :=
  ⟨(C15_suppression_per_session demoToolkit (fun _ => 5500) none [120]
      { workerMap :=
          [(3, processData demoToolkit 5000
                { Worker.fresh QByteArray QByteArray with type := 1, recvBuf := [120] }),
           (5, Worker.fresh QByteArray QByteArray)],
        deleted := [] } 0 3 5000
      { Worker.fresh QByteArray QByteArray with type := 1, recvBuf := [120] }
      rfl rfl rfl
      (by
        intro j e hj he
        match j, hj, he with
        | 0, hj, _ => exact absurd rfl hj
        | 1, _, he =>
          have e1 : e = (5, Worker.fresh QByteArray QByteArray) := (Option.some.inj he).symm
          rw [e1]
          rfl
        | n + 2, _, he => exact absurd he (by simp))
      (by
        intro k
        show (5000 : Nat) ≤ 5500 ∧ 5500 < 5000 + 1000 ∧ 1000 ≤ 5500 ∧ 5500 < 2 ^ 64
        decide)).1,
    by decide⟩

end Claims

end SyncClipboard
